import Mathlib

/-!
Verification of the PacManMadrid GTFS visualizer core: the GTFS preprocessor
(`scripts/preprocess-gtfs.js`, the second document of `src/src/App.jsx`), the
position engine (`activeBuses` and the per-frame `tick` loop of
`src/src/GtfsMap.jsx`) and the simulation clock driver (`App` component of
`src/src/App.jsx`).

JavaScript numbers are modelled as `Option ℚ`: `some q` is the finite value
`q` and `none` is `NaN`.  This is an exact-rational model: IEEE-754 rounding
is not modelled (all numeric claims are about exact schedule arithmetic), and
the infinities never arise in the modelled code paths (every division in the
source has a nonzero divisor, which the development proves where it matters).
Comparisons involving `NaN` are false, arithmetic propagates `NaN`, and `0`
and `NaN` are the falsy numbers — exactly ECMAScript's behaviour on these
operations.
-/

/-- A JavaScript number: `none` models `NaN`. -/
abbrev JsNum := Option ℚ

/-- JavaScript `a < b`: false when either side is `NaN`. -/
def jlt (a b : JsNum) : Bool :=
  match a, b with
  | some x, some y => decide (x < y)
  | _, _ => false

/-- JavaScript `a <= b`: false when either side is `NaN`. -/
def jle (a b : JsNum) : Bool :=
  match a, b with
  | some x, some y => decide (x ≤ y)
  | _, _ => false

/-- JavaScript `a + b`: `NaN` propagates. -/
def jadd (a b : JsNum) : JsNum :=
  match a, b with
  | some x, some y => some (x + y)
  | _, _ => none

/-- JavaScript `a - b`: `NaN` propagates. -/
def jsub (a b : JsNum) : JsNum :=
  match a, b with
  | some x, some y => some (x - y)
  | _, _ => none

/-- JavaScript `a * b`: `NaN` propagates. -/
def jmul (a b : JsNum) : JsNum :=
  match a, b with
  | some x, some y => some (x * y)
  | _, _ => none

/-- JavaScript `a / b`, restricted to the nonzero divisors the sources use.
Division by zero (which would give an IEEE infinity) is collapsed to `none`;
every division in the modelled code has a divisor proved nonzero, so this
branch is unreachable there. -/
def jdiv (a b : JsNum) : JsNum :=
  match a, b with
  | some x, some y => if y = 0 then none else some (x / y)
  | _, _ => none

/-- JavaScript truthiness of a number: `0` and `NaN` are falsy. -/
def jTruthy (a : JsNum) : Bool :=
  match a with
  | none => false
  | some q => decide (q ≠ 0)

/-- JavaScript `a || b` on numbers: `a` when truthy, else `b`. -/
def jOr (a b : JsNum) : JsNum :=
  if jTruthy a then a else b

/-- JavaScript `Math.min(a, b)`: `NaN` propagates. -/
def jmin (a b : JsNum) : JsNum :=
  match a, b with
  | some x, some y => some (min x y)
  | _, _ => none

/-- JavaScript `Math.max(a, b)`: `NaN` propagates. -/
def jmax (a b : JsNum) : JsNum :=
  match a, b with
  | some x, some y => some (max x y)
  | _, _ => none

/-- JavaScript `Math.abs(a)`: `NaN` propagates. -/
def jabs (a : JsNum) : JsNum :=
  match a with
  | some x => some |x|
  | none => none

/-- JavaScript `Math.round`: round half towards positive infinity.  `⌊x + 1/2⌋`
agrees with `Math.round` at every finite value. -/
def jsRound (a : JsNum) : Option ℤ :=
  match a with
  | some x => some ⌊x + 1/2⌋
  | none => none

/-- The preprocessor's 6-decimal rounding `Math.round(x * 1e6) / 1e6`. -/
def round6 (a : JsNum) : JsNum :=
  match jsRound (jmul a (some 1000000)) with
  | some z => some ((z : ℚ) / 1000000)
  | none => none

/-! ## Numeric string parsing

The sources use the JavaScript conversions `parseInt`, `parseFloat` and
`Number` on GTFS fields.  They are modelled here on the character list of the
string, structurally, for the forms GTFS data can take: optional sign,
decimal digits, optional fraction.  (Exponents, hex literals and `Infinity`
are not modelled; no claim involves them.)  As in JavaScript, `parseInt` and
`parseFloat` read the longest valid prefix and give `NaN` when no digit is
found, while `Number` must consume the whole string and maps the empty
string to `0`. -/

/-- Value of a digit run, most significant first. -/
def natOfDigits (l : List Char) : ℕ :=
  l.foldl (fun a c => a * 10 + (c.toNat - 48)) 0

/-- Split off the leading run of decimal digits. -/
def spanDigits (l : List Char) : List Char × List Char :=
  (l.takeWhile Char.isDigit, l.dropWhile Char.isDigit)

/-- Split off an optional leading sign; `true` means negative. -/
def spanSign (l : List Char) : Bool × List Char :=
  match l with
  | '-' :: rest => (true, rest)
  | '+' :: rest => (false, rest)
  | _ => (false, l)

/-- Strip leading and trailing whitespace. -/
def trimChars (l : List Char) : List Char :=
  ((l.dropWhile Char.isWhitespace).reverse.dropWhile Char.isWhitespace).reverse

/-- JavaScript `parseInt(s)` (base 10): sign and longest digit prefix; `NaN`
when no digit follows the sign. -/
def parseIntJs (s : String) : JsNum :=
  let l := trimChars s.data
  let sr := spanSign l
  let dr := spanDigits sr.2
  if dr.1 = [] then none
  else some ((if sr.1 then -1 else 1) * (natOfDigits dr.1 : ℚ))

/-- Fraction value of a digit run: `ds` read as the digits after the point. -/
def fracOfDigits (ds : List Char) : ℚ :=
  (natOfDigits ds : ℚ) / ((10 : ℚ) ^ ds.length)

/-- JavaScript `parseFloat(s)`: sign, digit prefix, optional `.` and fraction
digits; `NaN` when no digit occurs before or after the point. -/
def parseFloatJs (s : String) : JsNum :=
  let l := trimChars s.data
  let sr := spanSign l
  let ir := spanDigits sr.2
  let hasPoint := ir.2.head? = some '.'
  let fr := spanDigits (if hasPoint then ir.2.tail else [])
  if ir.1 = [] ∧ (¬ hasPoint ∨ fr.1 = []) then none
  else some ((if sr.1 then -1 else 1) *
    ((natOfDigits ir.1 : ℚ) + fracOfDigits fr.1))

/-- JavaScript `Number(s)`: like `parseFloat` but the whole string must be a
numeric literal, and the empty (or all-whitespace) string is `0`. -/
def jsNumber (s : String) : JsNum :=
  let l := trimChars s.data
  if l = [] then some 0
  else
    let sr := spanSign l
    let ir := spanDigits sr.2
    let hasPoint := ir.2.head? = some '.'
    let fr := spanDigits (if hasPoint then ir.2.tail else [])
    let rest := if hasPoint then fr.2 else ir.2
    if (ir.1 = [] ∧ fr.1 = []) ∨ rest ≠ [] then none
    else some ((if sr.1 then -1 else 1) *
      ((natOfDigits ir.1 : ℚ) + fracOfDigits fr.1))

/-- Split a character list at a separator character (JavaScript
`String.prototype.split` with a single-character separator). -/
def splitChar (sep : Char) (l : List Char) : List (List Char) :=
  match l with
  | [] => [[]]
  | c :: rest =>
    let r := splitChar sep rest
    if c = sep then [] :: r
    else match r with
      | [] => [[c]]
      | p :: ps => (c :: p) :: ps

/-- The preprocessor's `timeToSec`: `"H:MM:SS" → H*3600 + M*60 + (S || 0)`,
hours may exceed 23, no modulo.  Missing pieces behave like JavaScript
`undefined` in arithmetic (`NaN`), and `s || 0` maps a falsy seconds part to
`0`, exactly as in the source. -/
def timeToSec (t : String) : JsNum :=
  let parts := (splitChar ':' t.data).map (fun p => jsNumber (String.mk p))
  let h := (parts.getD 0 none)
  let m := (parts.getD 1 none)
  let s := if parts.length ≥ 3 then parts.getD 2 none else none
  jadd (jadd (jmul h (some 3600)) (jmul m (some 60))) (jOr s (some 0))

/-! ## Association lists

JavaScript objects used as maps are modelled as insertion-ordered association
lists: assignment to a fresh key appends, assignment to an existing key
replaces in place, `Object.values` is the list of values in that order.
(Every key the sources iterate over contains a `-` or `_` or is used for
lookup only, so ECMAScript's special integer-key iteration order never
applies.) -/

/-- Lookup in an association list (`m[k]`, `undefined` as `none`). -/
def alookup {K V : Type} [DecidableEq K] (k : K) : List (K × V) → Option V
  | [] => none
  | (k', v) :: rest => if k' = k then some v else alookup k rest

/-- Assignment `m[k] = v`: replace the first binding of `k` in place, or
append a fresh binding at the end. -/
def setKey {K V : Type} [DecidableEq K] (m : List (K × V)) (k : K) (v : V) :
    List (K × V) :=
  match m with
  | [] => [(k, v)]
  | (k', v') :: rest => if k' = k then (k, v) :: rest else (k', v') :: setKey rest k v

/-- Lookup of a list-valued key, `undefined` read as the empty list. -/
def lookupD {K V : Type} [DecidableEq K] (m : List (K × List V)) (k : K) : List V :=
  (alookup k m).getD []

/-- The idiom `if (!m[k]) m[k] = []; m[k].push(v)`. -/
def pushEntry {K V : Type} [DecidableEq K] (m : List (K × List V)) (k : K) (v : V) :
    List (K × List V) :=
  setKey m k (lookupD m k ++ [v])

/-- One step of stable insertion sort: the new element goes after every
element it is not strictly below, matching a stable `Array.prototype.sort`
with comparator `(a, b) => key(a) - key(b)`. -/
def insSorted {α : Type} (lt : α → α → Bool) (x : α) : List α → List α
  | [] => [x]
  | y :: l => if lt x y then x :: y :: l else y :: insSorted lt x l

/-- Stable sort by a boolean strict-order comparator. -/
def sortJs {α : Type} (lt : α → α → Bool) (l : List α) : List α :=
  l.foldl (fun acc x => insSorted lt x acc) []

/-! ## Preprocessor: input rows

One structure per GTFS table, fields as the raw strings `parseCSV` yields. -/

structure TripRow where
  trip_id : String
  route_id : String
  direction_id : String
  shape_id : String
  trip_headsign : String
deriving DecidableEq, Repr

structure ShapeRow where
  shape_id : String
  shape_pt_lat : String
  shape_pt_lon : String
  shape_pt_sequence : String
deriving DecidableEq, Repr

structure StopRow where
  stop_id : String
  stop_name : String
  stop_lat : String
  stop_lon : String
deriving DecidableEq, Repr

structure StopTimeRow where
  trip_id : String
  stop_id : String
  stop_sequence : String
  shape_dist_traveled : String
  arrival_time : String
deriving DecidableEq, Repr

structure FreqRow where
  trip_id : String
  start_time : String
  end_time : String
  headway_secs : String
deriving DecidableEq, Repr

structure RouteRow where
  route_id : String
  route_short_name : String
  route_long_name : String
  route_color : String
deriving DecidableEq, Repr

/-! ## Preprocessor: intermediate maps (steps 2-6 of `main`) -/

/-- One representative trip per `(direction_id, shape_id)` key. -/
structure TripInfo where
  shape_id : String
  trip_id : String
  headsign : String
  direction : JsNum
deriving DecidableEq, Repr

/-- The dedup key `` `${t.direction_id}_${t.shape_id}` ``. -/
def tripKey (t : TripRow) : String :=
  t.direction_id ++ "_" ++ t.shape_id

/-- `parseInt(t.direction_id) || 0`. -/
def mkTripInfo (t : TripRow) : TripInfo :=
  { shape_id := t.shape_id, trip_id := t.trip_id, headsign := t.trip_headsign,
    direction := jOr (parseIntJs t.direction_id) (some 0) }

/-- The `tripRoute` lookup: `tripRoute[t.trip_id] = t.route_id` per row. -/
def buildTripRoute (rows : List TripRow) : List (String × String) :=
  rows.foldl (fun m t => setKey m t.trip_id t.route_id) []

/-- The `routeTrips` map: per route, first trip per `(direction, shape)` key. -/
def buildRouteTrips (rows : List TripRow) : List (String × List (String × TripInfo)) :=
  rows.foldl (fun m t =>
    let inner := lookupD m t.route_id
    if (alookup (tripKey t) inner).isSome then m
    else setKey m t.route_id (inner ++ [(tripKey t, mkTripInfo t)])) []

/-- A parsed shape point. -/
structure ShapePt where
  lat : JsNum
  lon : JsNum
  seq : JsNum
deriving DecidableEq, Repr

/-- `shapesMap`: points grouped by `shape_id` then sorted by sequence number
(comparator `(a, b) => a.seq - b.seq`, stable). -/
def buildShapesMap (rows : List ShapeRow) : List (String × List ShapePt) :=
  (rows.foldl (fun m pt => pushEntry m pt.shape_id
      { lat := parseFloatJs pt.shape_pt_lat, lon := parseFloatJs pt.shape_pt_lon,
        seq := parseIntJs pt.shape_pt_sequence }) []).map
    (fun kv => (kv.1, sortJs (fun a b => jlt a.seq b.seq) kv.2))

/-- A parsed stop record. -/
structure StopInfo where
  id : String
  name : String
  lat : JsNum
  lon : JsNum
deriving DecidableEq, Repr

/-- `stopsMap`: keyed by `stop_id`, a later row overwrites an earlier one. -/
def buildStopsMap (rows : List StopRow) : List (String × StopInfo) :=
  rows.foldl (fun m s => setKey m s.stop_id
    { id := s.stop_id, name := s.stop_name,
      lat := parseFloatJs s.stop_lat, lon := parseFloatJs s.stop_lon }) []

/-- A parsed stop visit of one trip. -/
structure TripStop where
  stop_id : String
  seq : JsNum
  dist : JsNum
  arrSec : JsNum
deriving DecidableEq, Repr

/-- `tripStops`: visits grouped by `trip_id` then sorted by stop sequence.
Every entry of the map is nonempty by construction (a key is only created by
a push). -/
def buildTripStops (rows : List StopTimeRow) : List (String × List TripStop) :=
  (rows.foldl (fun m st => pushEntry m st.trip_id
      { stop_id := st.stop_id, seq := parseIntJs st.stop_sequence,
        dist := jOr (parseFloatJs st.shape_dist_traveled) (some 0),
        arrSec := timeToSec st.arrival_time }) []).map
    (fun kv => (kv.1, sortJs (fun a b => jlt a.seq b.seq) kv.2))

/-! ## Preprocessor: frequencies (step 6 of `main`) -/

/-- A frequency band as the preprocessor emits it. -/
structure Band where
  startSec : JsNum
  endSec : JsNum
  headway : JsNum
  tripDur : JsNum
deriving DecidableEq, Repr

/-- Arrival of the last element of a trip's stop list. -/
def arrLast : List TripStop → JsNum
  | [] => none
  | [x] => x.arrSec
  | _ :: y :: rest => arrLast (y :: rest)

/-- The trip duration of line 339: `sts ? sts[sts.length-1].arrSec -
sts[0].arrSec : 1800`.  The `some []` case is unreachable: `buildTripStops`
only creates nonempty entries (in JavaScript it would throw). -/
def tripDurOf : Option (List TripStop) → JsNum
  | none => some 1800
  | some [] => none
  | some (x :: xs) => jsub (arrLast (x :: xs)) x.arrSec

/-- The band pushed for one frequencies row. -/
def mkBand (tripStops : List (String × List TripStop)) (f : FreqRow) : Band :=
  { startSec := timeToSec f.start_time, endSec := timeToSec f.end_time,
    headway := parseIntJs f.headway_secs,
    tripDur := tripDurOf (alookup f.trip_id tripStops) }

/-- One frequencies row of the aggregation loop: resolve the trip to a route
(`if (!routeId) continue`, the empty string being falsy) and push the band. -/
def freqStep (tripRoute : List (String × String))
    (tripStops : List (String × List TripStop))
    (m : List (String × List Band)) (f : FreqRow) : List (String × List Band) :=
  match alookup f.trip_id tripRoute with
  | none => m
  | some rid => if rid = "" then m else pushEntry m rid (mkBand tripStops f)

/-- The per-route band lists before merging. -/
def buildFreqsPre (freqRows : List FreqRow) (tripRoute : List (String × String))
    (tripStops : List (String × List TripStop)) : List (String × List Band) :=
  freqRows.foldl (freqStep tripRoute tripStops) []

/-- The merge key `` `${b.startSec}-${b.endSec}` ``, modelled as the value
pair: distinct finite values print distinct strings, and two `NaN`s print the
same string, which `Option` equality at `none` matches. -/
def mergeKey (b : Band) : JsNum × JsNum :=
  (b.startSec, b.endSec)

/-- One band of the merge loop: keep the incumbent unless the new band's
headway is strictly smaller (first band wins ties, and a `NaN` comparison
never replaces). -/
def mergeStep (m : List ((JsNum × JsNum) × Band)) (b : Band) :
    List ((JsNum × JsNum) × Band) :=
  match alookup (mergeKey b) m with
  | none => m ++ [(mergeKey b, b)]
  | some cur => if jlt b.headway cur.headway then setKey m (mergeKey b) b else m

/-- Merge a route's bands and sort by `startSec` (comparator
`(a, b) => a.startSec - b.startSec`, stable). -/
def mergeBands (bands : List Band) : List Band :=
  sortJs (fun a b => jlt a.startSec b.startSec)
    ((bands.foldl mergeStep []).map Prod.snd)

/-- `routeFreqs` after aggregation and merging. -/
def buildRouteFreqs (freqRows : List FreqRow) (tripRoute : List (String × String))
    (tripStops : List (String × List TripStop)) : List (String × List Band) :=
  (buildFreqsPre freqRows tripRoute tripStops).map (fun kv => (kv.1, mergeBands kv.2))

/-! ## Preprocessor: building output routes (step 7 of `main`) -/

/-- A stop attached to an output shape. -/
structure OStop where
  id : String
  name : String
  coords : JsNum × JsNum
  dist : JsNum
  arr : JsNum
deriving DecidableEq, Repr

/-- An output shape: one direction/variant of a route. -/
structure OShape where
  shapeId : String
  headsign : String
  direction : JsNum
  coordinates : List (JsNum × JsNum)
  stops : List OStop
deriving DecidableEq, Repr

/-- An output route record, as serialized to `emt-routes.json` and consumed
by the engine. -/
structure ORoute where
  id : String
  shortName : String
  longName : String
  color : String
  shapes : List OShape
  tripDuration : JsNum
  frequencies : List Band
deriving DecidableEq, Repr

/-- The simplification stride: `pts.length > 200 ? 3 : pts.length > 100 ? 2 : 1`. -/
def stepOf (n : ℕ) : ℕ :=
  if n > 200 then 3 else if n > 100 then 2 else 1

/-- One rounded output coordinate `[lon, lat]`. -/
def roundPt (p : ShapePt) : JsNum × JsNum :=
  (round6 p.lon, round6 p.lat)

/-- The simplification loop over indices `i = 0, 1, …`: keep index `i` when
`i === 0 || i === total - 1 || i % step === 0`. -/
def simplifyAux (total step : ℕ) : ℕ → List ShapePt → List (JsNum × JsNum)
  | _, [] => []
  | i, p :: rest =>
    if i = 0 ∨ i = total - 1 ∨ i % step = 0 then roundPt p :: simplifyAux total step (i + 1) rest
    else simplifyAux total step (i + 1) rest

/-- Shape simplification (lines 371-381 of the preprocessor). -/
def simplifyShape (pts : List ShapePt) : List (JsNum × JsNum) :=
  simplifyAux pts.length (stepOf pts.length) 0 pts

/-- The timed stop list of one shape: resolve each visit through `stopsMap`,
dropping a visit whose stop is missing or has an unparsable coordinate
(`stop && !isNaN(stop.lat) && !isNaN(stop.lon)`). -/
def buildStopArr (stopsMap : List (String × StopInfo)) (tStops : List TripStop) :
    List OStop :=
  tStops.filterMap (fun ts =>
    match alookup ts.stop_id stopsMap with
    | none => none
    | some st =>
      match st.lat, st.lon with
      | some _, some _ =>
        some { id := st.id, name := st.name,
               coords := (round6 st.lon, round6 st.lat),
               dist := ts.dist, arr := ts.arrSec }
      | _, _ => none)

/-- One retained `(direction, shape)` representative: skipped when its shape
is missing or has fewer than 2 points. -/
def buildShape (shapesMap : List (String × List ShapePt))
    (stopsMap : List (String × StopInfo))
    (tripStops : List (String × List TripStop)) (ti : TripInfo) : Option OShape :=
  match alookup ti.shape_id shapesMap with
  | none => none
  | some pts =>
    if pts.length < 2 then none
    else some
      { shapeId := ti.shape_id, headsign := ti.headsign, direction := ti.direction,
        coordinates := simplifyShape pts,
        stops := buildStopArr stopsMap ((alookup ti.trip_id tripStops).getD []) }

/-- Arrival of the first stop of an output shape's stop list. -/
def arrFirst : List OStop → JsNum
  | [] => none
  | x :: _ => x.arr

/-- Arrival of the last stop of an output shape's stop list. -/
def arrLastO : List OStop → JsNum
  | [] => none
  | [x] => x.arr
  | _ :: y :: rest => arrLastO (y :: rest)

/-- A route's default trip duration: `s0.length > 1 ? s0[s0.length-1].arr -
s0[0].arr : 1800` over the first shape's stops. -/
def routeTripDuration (s0 : List OStop) : JsNum :=
  if 1 < s0.length then jsub (arrLastO s0) (arrFirst s0) else some 1800

/-- One route of the output loop: `continue` (`none`) when the route has no
trips or no valid shape. -/
def buildRoute (routeTrips : List (String × List (String × TripInfo)))
    (shapesMap : List (String × List ShapePt))
    (stopsMap : List (String × StopInfo))
    (tripStops : List (String × List TripStop))
    (routeFreqs : List (String × List Band)) (route : RouteRow) : Option ORoute :=
  match alookup route.route_id routeTrips with
  | none => none
  | some trips =>
    let routeShapes := trips.filterMap
      (fun kv => buildShape shapesMap stopsMap tripStops kv.2)
    if routeShapes.isEmpty then none
    else some
      { id := route.route_id, shortName := route.route_short_name,
        longName := route.route_long_name,
        color := if route.route_color ≠ "" then "#" ++ route.route_color else "#0178BC",
        shapes := routeShapes,
        tripDuration := routeTripDuration (((routeShapes.head?).map OShape.stops).getD []),
        frequencies := lookupD routeFreqs route.route_id }

/-- The ordered output route list (`outputRoutes`). -/
def buildOutputRoutes (routesRaw : List RouteRow)
    (routeTrips : List (String × List (String × TripInfo)))
    (shapesMap : List (String × List ShapePt))
    (stopsMap : List (String × StopInfo))
    (tripStops : List (String × List TripStop))
    (routeFreqs : List (String × List Band)) : List ORoute :=
  routesRaw.filterMap (buildRoute routeTrips shapesMap stopsMap tripStops routeFreqs)

/-! ## Preprocessor: the unique stop list (step 8 of `main`) -/

/-- The dedup loop over the flattened stop sequence: first occurrence of each
stop id is kept, in traversal order. -/
def dedupeStops (seen : List String) : List OStop → List OStop
  | [] => []
  | s :: rest =>
    if s.id ∈ seen then dedupeStops seen rest
    else s :: dedupeStops (s.id :: seen) rest

/-- All stops of all shapes of all routes, in emission order. -/
def flattenStops (routes : List ORoute) : List OStop :=
  routes.flatMap (fun r => r.shapes.flatMap (fun sh => sh.stops))

/-- The `allStops` document written to `emt-stops.json`. -/
def allStops (routes : List ORoute) : List OStop :=
  dedupeStops [] (flattenStops routes)

/-! ## Position engine (`src/src/GtfsMap.jsx`) -/

/-- The effective trip duration of one band:
`band.tripDur || route.tripDuration || 1800`. -/
def effDur (route : ORoute) (band : Band) : JsNum :=
  jOr band.tripDur (jOr route.tripDuration (some 1800))

/-- Fuel for the departure loop: an upper bound on its iteration count.  With
finite `startSec < endSec` and `headway > 0` the loop runs `⌈(end-start)/headway⌉`
times; with a `NaN` anywhere it runs at most once (a `NaN` comparison ends it).
The JavaScript loop needs no such bound because the `headway <= 0` guard keeps
every reachable case finite; the bound only makes the translation structural. -/
def bandFuel (band : Band) : ℕ :=
  match band.startSec, band.endSec, band.headway with
  | some s, some e, some h => if 0 < h then (⌈(e - s) / h⌉).toNat + 1 else 1
  | _, _, _ => 2

/-- The departure loop of `activeBuses`:
`for (let dep = band.startSec; dep < band.endSec; dep += band.headway)`,
skipping departures with `elapsed < 0 || elapsed > dur` and pushing
`{ progress: elapsed / dur }` for the rest. -/
def busLoop (endSec headway dur t : JsNum) : JsNum → ℕ → List JsNum
  | _, 0 => []
  | dep, fuel + 1 =>
    if jlt dep endSec then
      let elapsed := jsub t dep
      let rest := busLoop endSec headway dur t (jadd dep headway) fuel
      if jlt elapsed (some 0) || jlt dur elapsed then rest
      else jdiv elapsed dur :: rest
    else []

/-- One band's contribution to `activeBuses`: skipped when
`band.headway <= 0` (false for a `NaN` headway). -/
def bandVehicles (route : ORoute) (band : Band) (simTime : JsNum) : List JsNum :=
  if jle band.headway (some 0) then []
  else busLoop band.endSec band.headway (effDur route band) simTime
    band.startSec (bandFuel band)

/-- `activeBuses(route, simTime)`: the progress values of the vehicles now in
transit on the route, one loop pass per frequency band. -/
def activeBuses (route : ORoute) (simTime : JsNum) : List JsNum :=
  route.frequencies.flatMap (fun band => bandVehicles route band simTime)

/-- The precomputed geometry of one route (`routeGeo`), abstracting
`turf.length` as the parameter `lineLen` (geodesic length in kilometers):
`null` when the first shape is missing, has fewer than 2 coordinates, or its
line is not longer than 0.05 km. -/
structure Geo where
  line : List (JsNum × JsNum)
  len : ℚ
deriving DecidableEq, Repr

/-- `routeGeo` for one route: only `shapes[0]` is consulted. -/
def routeGeo (lineLen : List (JsNum × JsNum) → ℚ) (r : ORoute) : Option Geo :=
  match r.shapes.head? with
  | none => none
  | some sh =>
    if sh.coordinates.length < 2 then none
    else if 0.05 < lineLen sh.coordinates then some ⟨sh.coordinates, lineLen sh.coordinates⟩
    else none

/-- The rendering clamp `Math.max(0.001, Math.min(0.999, ab.progress))`. -/
def clampProg (p : JsNum) : JsNum :=
  jmax (some (1/1000)) (jmin (some (999/1000)) p)

/-- The Pac-Man palette used when a route has no color of its own. -/
def ROUTE_PALETTE : List String :=
  ["#FF0000", "#FFB8FF", "#00FFFF", "#FFB852", "#FF69B4", "#7FFF00",
   "#FF4500", "#DA70D6", "#1E90FF", "#FFD700", "#00FF7F", "#FF6347"]

/-- `routeColor(i)`: palette entry `i % 12`. -/
def routeColor (i : ℕ) : String :=
  ROUTE_PALETTE.getD (i % ROUTE_PALETTE.length) ""

/-- One rendered vehicle feature of the `tick` loop. -/
structure BusFeature where
  coord : JsNum × JsNum
  lineNumber : String
  routeName : String
  headsign : String
  color : String
  icon : String
deriving DecidableEq, Repr

/-- The feature pushed for one active vehicle. -/
def vehicleFeature (r : ORoute) (ri : ℕ) (sel : Option String)
    (pt : JsNum × JsNum) : BusFeature :=
  { coord := pt, lineNumber := r.shortName, routeName := r.longName,
    headsign := ((r.shapes.head?).map OShape.headsign).getD "",
    color := if r.color ≠ "" then r.color else routeColor ri,
    icon := if sel = some r.id then "pacman-hl" else "pacman" }

/-- Distance of the last stop (`sh.stops[sh.stops.length - 1]?.dist`). -/
def lastStopDist : List OStop → JsNum
  | [] => none
  | [x] => x.dist
  | _ :: y :: rest => lastStopDist (y :: rest)

/-- The pellet-eating pass of one vehicle: every stop of `shapes[0]` within
1.5% arc length of the clamped progress (`Math.abs(p - s.dist/totalD) < 0.015`).
The additions to the global `nowEaten` set are modelled as a list. -/
def shapeHits (p : JsNum) (shapes : List OShape) : List String :=
  match shapes.head? with
  | none => []
  | some sh =>
    if sh.stops.isEmpty then []
    else
      let totalD := jOr (lastStopDist sh.stops) (some 1)
      sh.stops.filterMap (fun s =>
        if jlt (jabs (jsub p (jdiv s.dist totalD))) (some (15/1000)) then some s.id
        else none)

/-- One route's pass of the `tick` loop: the vehicle features it pushes and
the stop ids it marks eaten.  `along` abstracts `turf.along` (constant-speed
interpolation at a given arc length); `none` models the caught
interpolation exception, which skips the vehicle and its pellet pass. -/
def routeFrame (along : List (JsNum × JsNum) → JsNum → Option (JsNum × JsNum))
    (geo : Option Geo) (r : ORoute) (ri : ℕ) (sel : Option String) (t : JsNum) :
    List BusFeature × List String :=
  match geo with
  | none => ([], [])
  | some g =>
    (activeBuses r t).foldl (fun acc ab =>
      let p := clampProg ab
      match along g.line (jmul p (some g.len)) with
      | none => acc
      | some pt => (acc.1 ++ [vehicleFeature r ri sel pt], acc.2 ++ shapeHits p r.shapes))
      ([], [])

/-- One whole frame: every route's features and eaten stops, in route order. -/
def computeFrame (lineLen : List (JsNum × JsNum) → ℚ)
    (along : List (JsNum × JsNum) → JsNum → Option (JsNum × JsNum))
    (routes : List ORoute) (sel : Option String) (t : JsNum) :
    List BusFeature × List String :=
  routes.enum.foldl (fun acc p =>
    let res := routeFrame along (routeGeo lineLen p.2) p.2 p.1 sel t
    (acc.1 ++ res.1, acc.2 ++ res.2)) ([], [])

/-! ## Clock driver (`App` component) -/

/-- `SIM_SPEED`: one simulated minute per real second. -/
def SIM_SPEED : ℚ := 60

/-- `T_MIN`: 05:00. -/
def T_MIN : ℚ := 5 * 3600

/-- `T_MAX`: 02:00 the next day. -/
def T_MAX : ℚ := 26 * 3600

/-- One animation step of the clock effect:
`n = prev + dt * SIM_SPEED; if (n > T_MAX) n = T_MIN`. -/
def stepClock (prev dt : ℚ) : ℚ :=
  if prev + dt * SIM_SPEED > T_MAX then T_MIN else prev + dt * SIM_SPEED

/-- A run of animation steps with the given real-time deltas. -/
def runClock (prev : ℚ) (dts : List ℚ) : ℚ :=
  dts.foldl stepClock prev

/-! ## Spec-side characterization of the departure loop

`specBandVehicles` is written from the specification's words, not from the
source: one vehicle per synthetic departure `dep = startSec + k * headwaySec`
with `dep < endSec`, active iff `0 ≤ t - dep ≤ tripDuration`, with progress
`(t - dep) / tripDuration`.  The refinement theorems compare it with the
source-translated `activeBuses`. -/

/-- Number of synthetic departures `startSec, startSec + h, … < endSec`. -/
def specDeps (s e h : ℚ) : ℕ :=
  (⌈(e - s) / h⌉).toNat

/-- The spec's active-vehicle list for one band with finite fields. -/
def specBandVehicles (dur t s e h : ℚ) : List JsNum :=
  (List.range (specDeps s e h)).filterMap (fun (k : ℕ) =>
    if 0 ≤ t - (s + (k : ℚ) * h) ∧ t - (s + (k : ℚ) * h) ≤ dur
    then some (some ((t - (s + (k : ℚ) * h)) / dur)) else none)

/-! ## Concrete fixtures

Small concrete inputs used by witnesses and counterexamples. -/

/-- The spec's example band `{start=28800, end=32400, headway=600,
tripDuration=1800}`. -/
def Bex : Band :=
  { startSec := some 28800, endSec := some 32400, headway := some 600,
    tripDur := some 1800 }

/-- A route carrying only `Bex`. -/
def Rex : ORoute :=
  { id := "Rex", shortName := "X", longName := "example route", color := "#FF0000",
    shapes := [], tripDuration := some 1800, frequencies := [Bex] }

/-- A band whose headway failed to parse (`NaN`), as preprocessing can emit. -/
def BexNaN : Band :=
  { startSec := some 100, endSec := some 200, headway := none, tripDur := some 50 }

/-- A route carrying only `BexNaN`. -/
def RexNaN : ORoute :=
  { id := "RexNaN", shortName := "N", longName := "nan headway route", color := "",
    shapes := [], tripDuration := some 1800, frequencies := [BexNaN] }

/-- Fixture trip row resolving trip `t1` to route `R1`. -/
def rowT1 : TripRow :=
  { trip_id := "t1", route_id := "R1", direction_id := "0", shape_id := "s1",
    trip_headsign := "CENTRO" }

/-- Fixture frequencies row with a zero headway. -/
def rowF0 : FreqRow :=
  { trip_id := "t1", start_time := "08:00:00", end_time := "09:00:00",
    headway_secs := "0" }

/-- Fixture frequencies row with a positive headway. -/
def rowF6 : FreqRow :=
  { trip_id := "t1", start_time := "08:00:00", end_time := "09:00:00",
    headway_secs := "600" }

/-- Fixture stop_times rows for trip `t1`. -/
def rowST1 : StopTimeRow :=
  { trip_id := "t1", stop_id := "p1", stop_sequence := "1",
    shape_dist_traveled := "0", arrival_time := "08:00:00" }

/-- Second fixture stop visit of trip `t1`. -/
def rowST2 : StopTimeRow :=
  { trip_id := "t1", stop_id := "p2", stop_sequence := "2",
    shape_dist_traveled := "1000", arrival_time := "08:30:00" }

/-- Fixture shape points for shape `s1`. -/
def rowSR1 : ShapeRow :=
  { shape_id := "s1", shape_pt_lat := "40.0", shape_pt_lon := "-3.0",
    shape_pt_sequence := "1" }

/-- Second fixture shape point of shape `s1`. -/
def rowSR2 : ShapeRow :=
  { shape_id := "s1", shape_pt_lat := "40.1", shape_pt_lon := "-3.1",
    shape_pt_sequence := "2" }

/-- Fixture stop rows. -/
def rowSP1 : StopRow :=
  { stop_id := "p1", stop_name := "Sol", stop_lat := "40.0", stop_lon := "-3.0" }

/-- Second fixture stop row. -/
def rowSP2 : StopRow :=
  { stop_id := "p2", stop_name := "Gran Via", stop_lat := "40.1", stop_lon := "-3.1" }

/-- Fixture route row for route `R1`. -/
def rowRR1 : RouteRow :=
  { route_id := "R1", route_short_name := "1", route_long_name := "Linea 1",
    route_color := "FF0000" }

/-- Fixture output stop. -/
def stopEx : OStop :=
  { id := "p1", name := "Sol", coords := (some (-3), some 40),
    dist := some 0, arr := some 28800 }

/-- Fixture output shape carrying `stopEx`. -/
def shapeEx : OShape :=
  { shapeId := "s1", headsign := "CENTRO", direction := some 0,
    coordinates := [(some (-3), some 40), (some (-31/10), some (401/10))],
    stops := [stopEx] }

/-- Fixture output route carrying `shapeEx` and `Bex`. -/
def routeEx : ORoute :=
  { id := "R1", shortName := "1", longName := "Linea 1", color := "#FF0000",
    shapes := [shapeEx], tripDuration := some 1800, frequencies := [Bex] }

/-- Invariant of the band-merge fold: the accumulated object has
duplicate-free keys, each binding's key is its band's window, each bound band
is one of the processed bands and carries a headway no larger than that of
any processed band sharing its window, and every processed band's window has
a binding. -/
def MergeInv (m : List ((JsNum × JsNum) × Band)) (processed : List Band) : Prop :=
  (m.map Prod.fst).Nodup ∧
  (∀ kv ∈ m, kv.1 = mergeKey kv.2 ∧ kv.2 ∈ processed ∧
    ∀ c ∈ processed, mergeKey c = kv.1 → jle kv.2.headway c.headway = true) ∧
  (∀ c ∈ processed, mergeKey c ∈ m.map Prod.fst)

/-! ## Lemmas: the JavaScript number model -/

theorem jlt_some_some (a b : ℚ) : jlt (some a) (some b) = decide (a < b) := rfl

theorem jle_some_some (a b : ℚ) : jle (some a) (some b) = decide (a ≤ b) := rfl

theorem jTruthy_eq_true {a : JsNum} (h : jTruthy a = true) :
    ∃ q : ℚ, a = some q ∧ q ≠ 0 := by
  cases a with
  | none => simp [jTruthy] at h
  | some q => exact ⟨q, rfl, by simpa [jTruthy] using h⟩

theorem jOr_of_truthy {a : JsNum} (b : JsNum) (h : jTruthy a = true) : jOr a b = a := by
  simp [jOr, h]

theorem jOr_of_falsy {a : JsNum} (b : JsNum) (h : jTruthy a = false) : jOr a b = b := by
  simp [jOr, h]

/-- The effective trip duration is always a finite nonzero value: each `||`
fallback is taken exactly when the previous link is falsy (`0` or `NaN`), and
the chain ends in the literal `1800`. -/
theorem effDur_nonzero (r : ORoute) (b : Band) :
    ∃ d : ℚ, effDur r b = some d ∧ d ≠ 0 := by
  unfold effDur
  rcases h1 : jTruthy b.tripDur with _ | _
  · rw [jOr_of_falsy _ h1]
    rcases h2 : jTruthy r.tripDuration with _ | _
    · rw [jOr_of_falsy _ h2]
      exact ⟨1800, rfl, by norm_num⟩
    · rw [jOr_of_truthy _ h2]
      exact jTruthy_eq_true h2
  · rw [jOr_of_truthy _ h1]
    exact jTruthy_eq_true h1

/-! ## Lemmas: the departure loop -/

theorem busLoop_zero (e h d t dep : JsNum) : busLoop e h d t dep 0 = [] := rfl

theorem busLoop_succ (e h d t dep : JsNum) (n : ℕ) :
    busLoop e h d t dep (n + 1) =
      if jlt dep e then
        (if jlt (jsub t dep) (some 0) || jlt d (jsub t dep)
         then busLoop e h d t (jadd dep h) n
         else jdiv (jsub t dep) d :: busLoop e h d t (jadd dep h) n)
      else [] := rfl

theorem specDeps_zero {s e h : ℚ} (hh : 0 < h) (hse : e ≤ s) : specDeps s e h = 0 := by
  unfold specDeps
  have hnp : (e - s) / h ≤ 0 := div_nonpos_iff.2 (Or.inr ⟨by linarith, le_of_lt hh⟩)
  have hc : ⌈(e - s) / h⌉ ≤ 0 := Int.ceil_le.2 (by exact_mod_cast hnp)
  omega

theorem specDeps_step {s e h : ℚ} (hh : 0 < h) (hse : s < e) :
    specDeps s e h = specDeps (s + h) e h + 1 := by
  unfold specDeps
  have hrw : e - (s + h) = (e - s) - h := by ring
  have hdiv : (e - (s + h)) / h = (e - s) / h - 1 := by
    rw [hrw, sub_div, div_self (ne_of_gt hh)]
  have hceil : ⌈(e - (s + h)) / h⌉ = ⌈(e - s) / h⌉ - 1 := by
    rw [hdiv, Int.ceil_sub_one]
  have hpos : 0 < ⌈(e - s) / h⌉ := Int.ceil_pos.2 (div_pos (by linarith) hh)
  rw [hceil]
  omega

/-- With finite values, positive headway and nonzero duration, the
translated departure loop computes exactly the spec's list: one entry per
departure `dep + k * h < e` satisfying `0 ≤ t - (dep + k * h) ≤ d`, carrying
progress `(t - (dep + k * h)) / d`. -/
theorem busLoop_eq_spec (e h d t : ℚ) (hh : 0 < h) (hd : d ≠ 0) :
    ∀ fuel : ℕ, ∀ dep : ℚ, specDeps dep e h ≤ fuel →
      busLoop (some e) (some h) (some d) (some t) (some dep) fuel =
        (List.range (specDeps dep e h)).filterMap (fun (k : ℕ) =>
          if 0 ≤ t - (dep + (k : ℚ) * h) ∧ t - (dep + (k : ℚ) * h) ≤ d
          then some (some ((t - (dep + (k : ℚ) * h)) / d)) else none) := by
  intro fuel
  induction fuel with
  | zero =>
    intro dep hle
    rw [Nat.le_zero.1 hle]
    rfl
  | succ n ih =>
    intro dep hle
    by_cases hde : dep < e
    · have hstep := specDeps_step hh hde
      have hnext := ih (dep + h) (by omega)
      have hb : jlt (some dep) (some e) = true := by
        simp only [jlt_some_some, decide_eq_true_eq]
        exact hde
      rw [busLoop_succ, hb, if_pos rfl]
      simp only [jsub, jadd, jdiv, if_neg hd]
      have hcomp : List.filterMap ((fun k : ℕ =>
          if 0 ≤ t - (dep + (k : ℚ) * h) ∧ t - (dep + (k : ℚ) * h) ≤ d
          then some (some ((t - (dep + (k : ℚ) * h)) / d)) else none) ∘ Nat.succ)
          (List.range (specDeps (dep + h) e h)) =
          busLoop (some e) (some h) (some d) (some t) (some (dep + h)) n := by
        rw [hnext]
        apply List.filterMap_congr
        intro k _
        simp only [Function.comp_apply]
        have harg : dep + (Nat.succ k : ℚ) * h = dep + h + (k : ℚ) * h := by
          push_cast
          ring
        rw [harg]
      by_cases hact : 0 ≤ t - dep ∧ t - dep ≤ d
      · have hcond : (jlt (some (t - dep)) (some 0) || jlt (some d) (some (t - dep))) =
            false := by
          simp only [jlt_some_some, Bool.or_eq_false_iff, decide_eq_false_iff_not]
          exact ⟨not_lt.2 hact.1, not_lt.2 hact.2⟩
        rw [hcond, if_neg (by simp : ¬ (false = true))]
        have hf0 : (if 0 ≤ t - dep ∧ t - dep ≤ d
            then some (some ((t - dep) / d)) else (none : Option JsNum)) =
            some (some ((t - dep) / d)) := if_pos hact
        rw [hstep, List.range_succ_eq_map]
        simp only [List.filterMap_cons, List.filterMap_map, Nat.cast_zero, zero_mul,
          add_zero, hf0]
        rw [hcomp]
      · have hor : t - dep < 0 ∨ d < t - dep := by
          rcases not_and_or.1 hact with hc | hc
          · exact Or.inl (lt_of_not_le hc)
          · exact Or.inr (lt_of_not_le hc)
        have hcond : (jlt (some (t - dep)) (some 0) || jlt (some d) (some (t - dep))) =
            true := by
          simp only [jlt_some_some, Bool.or_eq_true, decide_eq_true_eq]
          exact hor
        rw [hcond, if_pos rfl]
        have hf0 : (if 0 ≤ t - dep ∧ t - dep ≤ d
            then some (some ((t - dep) / d)) else (none : Option JsNum)) =
            none := if_neg hact
        rw [hstep, List.range_succ_eq_map]
        simp only [List.filterMap_cons, List.filterMap_map, Nat.cast_zero, zero_mul,
          add_zero, hf0]
        rw [hcomp]
    · have h0 : specDeps dep e h = 0 := specDeps_zero hh (le_of_not_lt hde)
      have hb : jlt (some dep) (some e) = false := by
        simp only [jlt_some_some, decide_eq_false_iff_not]
        exact hde
      rw [h0, busLoop_succ, hb, if_neg (by simp : ¬ (false = true))]
      rfl

/-- A band's contribution under the translated guard and loop, for finite
fields and positive headway, equals the spec's list. -/
theorem bandVehicles_eq_spec (r : ORoute) (b : Band) (t s e h : ℚ)
    (hs : b.startSec = some s) (he : b.endSec = some e) (hh : b.headway = some h)
    (hpos : 0 < h) :
    bandVehicles r b (some t) = specBandVehicles ((effDur r b).getD 1800) t s e h := by
  obtain ⟨d, hd, hdne⟩ := effDur_nonzero r b
  have hgd : (effDur r b).getD 1800 = d := by rw [hd]; rfl
  have hguard : jle b.headway (some 0) = false := by
    rw [hh, jle_some_some]
    simp only [decide_eq_false_iff_not, not_le]
    exact hpos
  have hfuel : bandFuel b = specDeps s e h + 1 := by
    simp only [bandFuel, hs, he, hh, if_pos hpos]
    rfl
  unfold bandVehicles
  rw [hguard, if_neg (by simp : ¬ (false = true)), hs, he, hh, hd, hfuel]
  simp only [Option.getD_some]
  unfold specBandVehicles
  exact busLoop_eq_spec e h d t hpos hdne (specDeps s e h + 1) s (by omega)

/-- A band with a non-positive (finite) headway is skipped by the engine. -/
theorem bandVehicles_of_nonpos (r : ORoute) (b : Band) (t : JsNum)
    (hle : jle b.headway (some 0) = true) : bandVehicles r b t = [] := by
  simp [bandVehicles, hle]

/-- C1: for every route, frequency band with finite fields and
`headwaySec > 0`, and simulated time `t`, the engine's active-vehicle set
contains exactly one vehicle per synthetic departure `dep = startSec + k *
headwaySec < endSec` with `0 ≤ t - dep ≤ tripDuration` (the band's own trip
duration when truthy, else the route's default, else 1800), each with
progress `(t - dep) / tripDuration`; a route with no frequency bands yields
zero vehicles at every `t`, and a band with `headwaySec ≤ 0` contributes
zero vehicles. -/
theorem activeBuses_characterization (r : ORoute) (t : ℚ) :
    activeBuses r (some t) =
      r.frequencies.flatMap (fun b => bandVehicles r b (some t)) ∧
    (r.frequencies = [] → activeBuses r (some t) = []) ∧
    (∀ b : Band, ∀ s e h : ℚ, b.startSec = some s → b.endSec = some e →
      b.headway = some h →
      (0 < h → bandVehicles r b (some t) =
        specBandVehicles ((effDur r b).getD 1800) t s e h) ∧
      (h ≤ 0 → bandVehicles r b (some t) = [])) := by
  refine ⟨rfl, ?_, ?_⟩
  · intro hfe
    simp [activeBuses, hfe]
  · intro b s e h hs he hh
    refine ⟨fun hpos => bandVehicles_eq_spec r b t s e h hs he hh hpos, fun hle => ?_⟩
    apply bandVehicles_of_nonpos
    rw [hh, jle_some_some]
    simpa using hle

/-- Witness for C1 at the spec's example band and `t = 29100`. -/
theorem activeBuses_characterization_witness :
    (Bex.startSec = some 28800 ∧ Bex.endSec = some 32400 ∧
      Bex.headway = some 600 ∧ (0 : ℚ) < 600) ∧
    bandVehicles Rex Bex (some 29100) =
      specBandVehicles ((effDur Rex Bex).getD 1800) 29100 28800 32400 600 := by
  refine ⟨⟨rfl, rfl, rfl, by norm_num⟩, ?_⟩
  exact ((activeBuses_characterization Rex 29100).2.2 Bex 28800 32400 600
    rfl rfl rfl).1 (by norm_num)

/-! ## Concrete evaluations of the example band -/

theorem effDur_Rex_Bex : effDur Rex Bex = some 1800 := by
  norm_num [effDur, Rex, Bex, jOr, jTruthy]

theorem activeBuses_Rex (t : ℚ) :
    activeBuses Rex (some t) = specBandVehicles 1800 t 28800 32400 600 := by
  have hb := bandVehicles_eq_spec Rex Bex t 28800 32400 600 rfl rfl rfl (by norm_num)
  rw [effDur_Rex_Bex] at hb
  show bandVehicles Rex Bex (some t) ++ [] = _
  rw [List.append_nil, hb]
  rfl

theorem specDeps_Bex : specDeps 28800 32400 600 = 6 := by
  have h1 : ((32400 : ℚ) - 28800) / 600 = 6 := by norm_num
  simp only [specDeps, h1, Int.ceil_ofNat]
  rfl

theorem specBand_Bex_29100 : specBandVehicles 1800 29100 28800 32400 600 =
    [some (1/6)] := by
  unfold specBandVehicles
  rw [specDeps_Bex, show List.range 6 = [0, 1, 2, 3, 4, 5] from rfl]
  norm_num [List.filterMap_cons]

theorem specBand_Bex_28799 : specBandVehicles 1800 28799 28800 32400 600 = [] := by
  unfold specBandVehicles
  rw [specDeps_Bex, show List.range 6 = [0, 1, 2, 3, 4, 5] from rfl]
  norm_num [List.filterMap_cons]

theorem specBand_Bex_30900 : specBandVehicles 1800 30900 28800 32400 600 =
    [some (5/6), some (1/2), some (1/6)] := by
  unfold specBandVehicles
  rw [specDeps_Bex, show List.range 6 = [0, 1, 2, 3, 4, 5] from rfl]
  norm_num [List.filterMap_cons]

/-- C2 counterexample: for the band `{start=28800, end=32400, headway=600,
tripDuration=1800}`, at `t=29100` the engine reports exactly one vehicle but
its progress is `300/1800 = 1/6`, not `0.5` (elapsed is 300 seconds, half the
headway, not half the trip duration). -/
theorem c2_progress_at_29100_not_half :
    activeBuses Rex (some 29100) = [some (1/6)] ∧ ((1 : ℚ)/6) ≠ 1/2 := by
  refine ⟨?_, by norm_num⟩
  rw [activeBuses_Rex, specBand_Bex_29100]

/-- C2 amended: for the band `{start=28800, end=32400, headway=600,
tripDuration=1800}`, at `t=29100` exactly one vehicle is active and its
progress is `1/6`; at `t=28799` no vehicle is active at all, and at
`t=30900` the active vehicles are those of the departures 29400, 30000 and
30600 (progress `5/6, 1/2, 1/6`) while the departure `dep=28800` fails the
activity test `0 ≤ t - dep ≤ 1800`. -/
theorem c2_amended_example_band :
    activeBuses Rex (some 29100) = [some (1/6)] ∧
    activeBuses Rex (some 28799) = [] ∧
    activeBuses Rex (some 30900) = [some (5/6), some (1/2), some (1/6)] ∧
    ¬ (0 ≤ (28799 : ℚ) - 28800) ∧ ¬ ((30900 : ℚ) - 28800 ≤ 1800) := by
  refine ⟨?_, ?_, ?_, by norm_num, by norm_num⟩
  · rw [activeBuses_Rex, specBand_Bex_29100]
  · rw [activeBuses_Rex, specBand_Bex_28799]
  · rw [activeBuses_Rex, specBand_Bex_30900]

/-- C10: a band whose headway is `NaN` is not treated as empty: the
`headway <= 0` guard does not skip it (a `NaN` comparison is false), and the
departure loop evaluates exactly one candidate departure at `dep = startSec`
(the second loop test compares against `NaN` and stops), so the band yields
one vehicle iff `startSec < endSec` and `0 ≤ t - startSec ≤ tripDuration`,
and none otherwise. -/
theorem nan_headway_band_one_departure (r : ORoute) (b : Band) (s e t : ℚ)
    (hs : b.startSec = some s) (he : b.endSec = some e) (hh : b.headway = none) :
    bandVehicles r b (some t) =
      if s < e ∧ 0 ≤ t - s ∧ t - s ≤ (effDur r b).getD 1800
      then [some ((t - s) / (effDur r b).getD 1800)] else [] := by
  obtain ⟨d, hd, hdne⟩ := effDur_nonzero r b
  have hgd : (effDur r b).getD 1800 = d := by rw [hd]; rfl
  have hguard : jle b.headway (some 0) = false := by rw [hh]; rfl
  have hfuel : bandFuel b = 2 := by
    simp only [bandFuel, hs, he, hh]
  unfold bandVehicles
  rw [hguard, if_neg (by simp : ¬ (false = true)), hs, he, hh, hd, hfuel]
  simp only [Option.getD_some]
  by_cases hse : s < e
  · have hb : jlt (some s) (some e) = true := by
      rw [jlt_some_some]
      simpa using hse
    rw [busLoop_succ, hb, if_pos rfl]
    simp only [jsub, jadd, jdiv, if_neg hdne]
    have hnext : busLoop (some e) none (some d) (some t) none 1 = [] := rfl
    rw [hnext]
    by_cases hact : 0 ≤ t - s ∧ t - s ≤ d
    · have hcond : (jlt (some (t - s)) (some 0) || jlt (some d) (some (t - s))) =
          false := by
        simp only [jlt_some_some, Bool.or_eq_false_iff, decide_eq_false_iff_not]
        exact ⟨not_lt.2 hact.1, not_lt.2 hact.2⟩
      rw [hcond, if_neg (by simp : ¬ (false = true)), if_pos ⟨hse, hact⟩]
    · have hor : t - s < 0 ∨ d < t - s := by
        rcases not_and_or.1 hact with hc | hc
        · exact Or.inl (lt_of_not_le hc)
        · exact Or.inr (lt_of_not_le hc)
      have hcond : (jlt (some (t - s)) (some 0) || jlt (some d) (some (t - s))) =
          true := by
        simp only [jlt_some_some, Bool.or_eq_true, decide_eq_true_eq]
        exact hor
      rw [hcond, if_pos rfl, if_neg (by
        intro hcon
        exact hact hcon.2)]
  · have hb : jlt (some s) (some e) = false := by
      rw [jlt_some_some]
      simpa using le_of_not_lt hse
    rw [busLoop_succ, hb, if_neg (by simp : ¬ (false = true)), if_neg (by
      intro hcon
      exact hse hcon.1)]

/-- Witness for C10: the `NaN`-headway fixture at `t = 120` yields exactly
one vehicle, from the single candidate departure at `startSec = 100`. -/
theorem nan_headway_band_witness :
    (BexNaN.startSec = some 100 ∧ BexNaN.endSec = some 200 ∧
      BexNaN.headway = none) ∧
    bandVehicles RexNaN BexNaN (some 120) =
      (if (100 : ℚ) < 200 ∧ 0 ≤ (120 : ℚ) - 100 ∧
          (120 : ℚ) - 100 ≤ (effDur RexNaN BexNaN).getD 1800
       then [some (((120 : ℚ) - 100) / (effDur RexNaN BexNaN).getD 1800)] else []) := by
  exact ⟨⟨rfl, rfl, rfl⟩,
    nan_headway_band_one_departure RexNaN BexNaN 100 200 120 rfl rfl rfl⟩

/-! ## Clock driver: step shape and boundedness -/

theorem stepClock_le_T_MAX (prev dt : ℚ) : stepClock prev dt ≤ T_MAX := by
  unfold stepClock
  split
  · norm_num [T_MIN, T_MAX]
  · exact le_of_not_lt (by assumption)

/-- C8: one step of the clock driver produces `prev + dt * SIM_SPEED` when
that value does not exceed `T_MAX`, and exactly `T_MIN` when it exceeds
`T_MAX`; consequently, starting at or below `T_MAX`, the clock never exceeds
`T_MAX` across any sequence of steps. -/
theorem clock_step_and_bound (prev dt : ℚ) (hdt : 0 < dt) :
    (prev + dt * SIM_SPEED ≤ T_MAX → stepClock prev dt = prev + dt * SIM_SPEED) ∧
    (T_MAX < prev + dt * SIM_SPEED → stepClock prev dt = T_MIN) ∧
    (∀ dts : List ℚ, prev ≤ T_MAX → runClock prev dts ≤ T_MAX) := by
  refine ⟨fun hle => ?_, fun hgt => ?_, fun dts => ?_⟩
  · unfold stepClock
    rw [if_neg (not_lt.2 hle)]
  · unfold stepClock
    rw [if_pos hgt]
  · induction dts generalizing prev with
    | nil => exact fun hp => hp
    | cons d rest ih =>
      intro hp
      exact ih (stepClock prev d) (stepClock_le_T_MAX prev d)

/-- Witness for C8 at `prev = 28800`, `dt = 1`. -/
theorem clock_step_and_bound_witness :
    stepClock 28800 1 = 28860 ∧ runClock 28800 [1, 1000] ≤ T_MAX := by
  have h := clock_step_and_bound 28800 1 (by norm_num)
  constructor
  · rw [h.1 (by norm_num [SIM_SPEED, T_MAX])]
    norm_num [SIM_SPEED]
  · exact h.2.2 [1, 1000] (by norm_num [T_MAX])

/-! ## Shape simplification: index characterization and endpoints -/

theorem simplifyAux_eq_enumFrom (total step : ℕ) :
    ∀ (l : List ShapePt) (i : ℕ),
      simplifyAux total step i l = (List.enumFrom i l).filterMap (fun pi =>
        if pi.1 = 0 ∨ pi.1 = total - 1 ∨ pi.1 % step = 0
        then some (roundPt pi.2) else none) := by
  intro l
  induction l with
  | nil => intro i; rfl
  | cons p rest ih =>
    intro i
    rw [List.enumFrom_cons]
    by_cases hc : i = 0 ∨ i = total - 1 ∨ i % step = 0
    · rw [simplifyAux, if_pos hc, ih (i + 1)]
      simp only [List.filterMap_cons, if_pos hc]
    · rw [simplifyAux, if_neg hc, ih (i + 1)]
      simp only [List.filterMap_cons, if_neg hc]

theorem getLast?_cons_of_some {α : Type} {l : List α} {z : α} (a : α)
    (h : l.getLast? = some z) : (a :: l).getLast? = some z := by
  cases l with
  | nil => simp at h
  | cons b m => rw [List.getLast?_cons_cons]; exact h

theorem simplifyAux_getLast? (total step : ℕ) :
    ∀ (l : List ShapePt) (i : ℕ), l ≠ [] → i + l.length = total →
      (simplifyAux total step i l).getLast? = l.getLast?.map roundPt := by
  intro l
  induction l with
  | nil => intro i hne; exact absurd rfl hne
  | cons p rest ih =>
    intro i hne htot
    cases rest with
    | nil =>
      have hi : i = total - 1 := by
        simp only [List.length_singleton] at htot
        omega
      rw [simplifyAux, if_pos (Or.inr (Or.inl hi))]
      rfl
    | cons q rest' =>
      have htot' : (i + 1) + (q :: rest').length = total := by
        simp only [List.length_cons] at htot ⊢
        omega
      have hlast := ih (i + 1) (by simp) htot'
      rw [List.getLast?_cons_cons]
      by_cases hc : i = 0 ∨ i = total - 1 ∨ i % step = 0
      · rw [simplifyAux, if_pos hc]
        cases hz : (q :: rest').getLast? with
        | none => simp at hz
        | some z =>
          rw [Option.map_some']
          apply getLast?_cons_of_some
          rw [hlast, hz, Option.map_some']
      · rw [simplifyAux, if_neg hc]
        exact hlast

/-- C6: for every shape with at least 2 input points, the simplified
coordinate list consists exactly of the points at indices `i` with `i = 0`,
`i = last` or `i % N = 0` (`N` the stride from the point count), in input
order, each coordinate rounded to 6 decimal places; in particular the first
and last output coordinates equal the first and last input coordinates up to
that rounding. -/
theorem simplification_characterization (pts : List ShapePt) (h2 : 2 ≤ pts.length) :
    simplifyShape pts = (List.enumFrom 0 pts).filterMap (fun pi =>
      if pi.1 = 0 ∨ pi.1 = pts.length - 1 ∨ pi.1 % stepOf pts.length = 0
      then some (roundPt pi.2) else none) ∧
    (simplifyShape pts).head? = pts.head?.map roundPt ∧
    (simplifyShape pts).getLast? = pts.getLast?.map roundPt := by
  refine ⟨simplifyAux_eq_enumFrom pts.length (stepOf pts.length) pts 0, ?_, ?_⟩
  · cases pts with
    | nil => simp at h2
    | cons p rest =>
      show (simplifyAux (p :: rest).length (stepOf (p :: rest).length) 0
        (p :: rest)).head? = _
      rw [simplifyAux, if_pos (Or.inl rfl)]
      rfl
  · exact simplifyAux_getLast? pts.length (stepOf pts.length) pts 0
      (List.length_pos.1 (by omega)) (by omega)

/-- Witness for C6 on a two-point shape. -/
theorem simplification_characterization_witness :
    2 ≤ ([⟨some 40, some (-3), some 1⟩, ⟨some 41, some (-4), some 2⟩] :
      List ShapePt).length ∧
    (simplifyShape [⟨some 40, some (-3), some 1⟩, ⟨some 41, some (-4), some 2⟩]).getLast? =
      ([⟨some 40, some (-3), some 1⟩, ⟨some 41, some (-4), some 2⟩] :
        List ShapePt).getLast?.map roundPt :=
  ⟨by norm_num,
   (simplification_characterization
     [⟨some 40, some (-3), some 1⟩, ⟨some 41, some (-4), some 2⟩] (by norm_num)).2.2⟩

/-! ## Unique stop list: no duplicates, all referenced stops present -/

theorem dedupeStops_nodup (l : List OStop) :
    ∀ seen : List String, ((dedupeStops seen l).map OStop.id).Nodup ∧
      ∀ s ∈ dedupeStops seen l, s.id ∉ seen := by
  induction l with
  | nil =>
    intro seen
    exact ⟨List.nodup_nil, fun s hs => absurd hs (List.not_mem_nil s)⟩
  | cons s rest ih =>
    intro seen
    by_cases hs : s.id ∈ seen
    · rw [dedupeStops, if_pos hs]
      exact ih seen
    · rw [dedupeStops, if_neg hs]
      obtain ⟨hnd, hdis⟩ := ih (s.id :: seen)
      refine ⟨?_, ?_⟩
      · rw [List.map_cons, List.nodup_cons]
        refine ⟨?_, hnd⟩
        intro hmem
        obtain ⟨x, hx, hxid⟩ := List.mem_map.1 hmem
        exact hdis x hx (hxid ▸ List.mem_cons_self _ _)
      · intro x hx
        rcases List.mem_cons.1 hx with hh | ht
        · rw [hh]; exact hs
        · intro hxs
          exact hdis x ht (List.mem_cons_of_mem _ hxs)

theorem dedupeStops_complete (l : List OStop) :
    ∀ seen : List String, ∀ s ∈ l,
      s.id ∈ seen ∨ s.id ∈ (dedupeStops seen l).map OStop.id := by
  induction l with
  | nil => intro seen s hs; simp at hs
  | cons x rest ih =>
    intro seen s hs
    by_cases hx : x.id ∈ seen
    · rw [dedupeStops, if_pos hx]
      rcases List.mem_cons.1 hs with hh | ht
      · exact Or.inl (hh ▸ hx)
      · exact ih seen s ht
    · rw [dedupeStops, if_neg hx]
      rcases List.mem_cons.1 hs with hh | ht
      · exact Or.inr (by rw [hh, List.map_cons]; exact List.mem_cons_self _ _)
      · rcases ih (x.id :: seen) s ht with hc | hc
        · rcases List.mem_cons.1 hc with he | hseen
          · exact Or.inr (by rw [List.map_cons, he]; exact List.mem_cons_self _ _)
          · exact Or.inl hseen
        · exact Or.inr (by rw [List.map_cons]; exact List.mem_cons_of_mem _ hc)

/-- C7: the emitted Stop document has no two records with the same stop id,
and every stop id appearing in any shape's stop list of any emitted route is
present in it. -/
theorem allStops_nodup_and_complete (routes : List ORoute) :
    ((allStops routes).map OStop.id).Nodup ∧
    ∀ r ∈ routes, ∀ sh ∈ r.shapes, ∀ s ∈ sh.stops,
      s.id ∈ (allStops routes).map OStop.id := by
  constructor
  · exact (dedupeStops_nodup (flattenStops routes) []).1
  · intro r hr sh hsh s hs
    have hmem : s ∈ flattenStops routes := by
      unfold flattenStops
      exact List.mem_flatMap.2 ⟨r, hr, List.mem_flatMap.2 ⟨sh, hsh, hs⟩⟩
    rcases dedupeStops_complete (flattenStops routes) [] s hmem with hc | hc
    · simp at hc
    · exact hc

/-- Witness for C7 on a one-route fixture. -/
theorem allStops_nodup_and_complete_witness :
    (routeEx ∈ [routeEx] ∧ shapeEx ∈ routeEx.shapes ∧ stopEx ∈ shapeEx.stops) ∧
    stopEx.id ∈ (allStops [routeEx]).map OStop.id :=
  ⟨⟨by simp, by simp [routeEx], by simp [shapeEx]⟩,
   (allStops_nodup_and_complete [routeEx]).2 routeEx (by simp) shapeEx
     (by simp [routeEx]) stopEx (by simp [shapeEx])⟩

/-! ## Evaluation lemmas for the numeric string conversions

Character-level facts are decided by the kernel; only the final rational
value needs `norm_num`. -/

theorem parseIntJs_eval (s : String) (ds : List Char) (n : ℕ)
    (h1 : trimChars s.data = ds) (h5 : spanSign ds = (false, ds))
    (h6 : spanDigits ds = (ds, [])) (h2 : ds ≠ []) (h4 : natOfDigits ds = n) :
    parseIntJs s = some n := by
  simp only [parseIntJs, h1, h5, h6]
  rw [if_neg h2, h4]
  norm_num

theorem jsNumber_eval (s : String) (ds : List Char) (n : ℕ)
    (h1 : trimChars s.data = ds) (h5 : spanSign ds = (false, ds))
    (h6 : spanDigits ds = (ds, [])) (h2 : ds ≠ []) (h4 : natOfDigits ds = n) :
    jsNumber s = some n := by
  simp only [jsNumber, h1, h5, h6]
  rw [if_neg h2]
  simp only [List.head?_nil, List.tail_nil, reduceCtorEq, if_neg]
  rw [if_neg (by simp [h2]), h4]
  norm_num [fracOfDigits, natOfDigits, spanDigits, List.takeWhile_nil,
    List.dropWhile_nil]

theorem jOr_some_zero (c : ℚ) : jOr (some c) (some 0) = some c := by
  by_cases hc : c = 0
  · simp [jOr, jTruthy, hc]
  · simp [jOr, jTruthy, hc]

theorem timeToSec_eval (t : String) (p1 p2 p3 : List Char) (a b c : ℚ)
    (h1 : splitChar ':' t.data = [p1, p2, p3])
    (h2 : jsNumber (String.mk p1) = some a)
    (h3 : jsNumber (String.mk p2) = some b)
    (h4 : jsNumber (String.mk p3) = some c) :
    timeToSec t = some (a * 3600 + b * 60 + c) := by
  simp only [timeToSec, h1, List.map, h2, h3, h4, List.getD, List.length_cons,
    List.length_nil, List.get?_cons_zero, List.get?_cons_succ,
    Option.getD_some, ge_iff_le]
  rw [if_pos (by norm_num), jOr_some_zero]
  simp [jadd, jmul]

theorem parseFloatJs_eval_digits (s : String) (ds : List Char) (n : ℕ)
    (h1 : trimChars s.data = ds) (h5 : spanSign ds = (false, ds))
    (h6 : spanDigits ds = (ds, [])) (h2 : ds ≠ []) (h4 : natOfDigits ds = n) :
    parseFloatJs s = some n := by
  simp only [parseFloatJs, h1, h5, h6]
  rw [if_neg (by simp [h2]), h4]
  norm_num [fracOfDigits, natOfDigits, spanDigits, List.takeWhile_nil,
    List.dropWhile_nil]

theorem pI0 : parseIntJs "0" = some 0 :=
  parseIntJs_eval _ ['0'] 0 (by decide) (by decide) (by decide) (by decide) (by decide)

theorem pI1 : parseIntJs "1" = some 1 :=
  parseIntJs_eval _ ['1'] 1 (by decide) (by decide) (by decide) (by decide) (by decide)

theorem pI2 : parseIntJs "2" = some 2 :=
  parseIntJs_eval _ ['2'] 2 (by decide) (by decide) (by decide) (by decide) (by decide)

theorem pI600 : parseIntJs "600" = some 600 :=
  parseIntJs_eval _ ['6', '0', '0'] 600 (by decide) (by decide) (by decide)
    (by decide) (by decide)

theorem pF0 : parseFloatJs "0" = some 0 :=
  parseFloatJs_eval_digits _ ['0'] 0 (by decide) (by decide) (by decide)
    (by decide) (by decide)

theorem pF1000 : parseFloatJs "1000" = some 1000 :=
  parseFloatJs_eval_digits _ ['1', '0', '0', '0'] 1000 (by decide) (by decide)
    (by decide) (by decide) (by decide)

theorem tts0800 : timeToSec "08:00:00" = some 28800 := by
  rw [timeToSec_eval "08:00:00" ['0', '8'] ['0', '0'] ['0', '0'] 8 0 0 (by decide)
    (jsNumber_eval _ ['0', '8'] 8 (by decide) (by decide) (by decide) (by decide)
      (by decide))
    (jsNumber_eval _ ['0', '0'] 0 (by decide) (by decide) (by decide) (by decide)
      (by decide))
    (jsNumber_eval _ ['0', '0'] 0 (by decide) (by decide) (by decide) (by decide)
      (by decide))]
  norm_num

theorem tts0830 : timeToSec "08:30:00" = some 30600 := by
  rw [timeToSec_eval "08:30:00" ['0', '8'] ['3', '0'] ['0', '0'] 8 30 0 (by decide)
    (jsNumber_eval _ ['0', '8'] 8 (by decide) (by decide) (by decide) (by decide)
      (by decide))
    (jsNumber_eval _ ['3', '0'] 30 (by decide) (by decide) (by decide) (by decide)
      (by decide))
    (jsNumber_eval _ ['0', '0'] 0 (by decide) (by decide) (by decide) (by decide)
      (by decide))]
  norm_num

theorem tts0900 : timeToSec "09:00:00" = some 32400 := by
  rw [timeToSec_eval "09:00:00" ['0', '9'] ['0', '0'] ['0', '0'] 9 0 0 (by decide)
    (jsNumber_eval _ ['0', '9'] 9 (by decide) (by decide) (by decide) (by decide)
      (by decide))
    (jsNumber_eval _ ['0', '0'] 0 (by decide) (by decide) (by decide) (by decide)
      (by decide))
    (jsNumber_eval _ ['0', '0'] 0 (by decide) (by decide) (by decide) (by decide)
      (by decide))]
  norm_num

theorem insSorted_length {α : Type} (lt : α → α → Bool) (x : α) (l : List α) :
    (insSorted lt x l).length = l.length + 1 := by
  induction l with
  | nil => rfl
  | cons y rest ih =>
    rw [insSorted]
    by_cases hc : lt x y = true
    · rw [if_pos hc]
      rfl
    · rw [if_neg hc, List.length_cons, List.length_cons, ih]

theorem sortJs_length {α : Type} (lt : α → α → Bool) (l : List α) :
    (sortJs lt l).length = l.length := by
  suffices h : ∀ acc : List α, (l.foldl (fun a x => insSorted lt x a) acc).length =
      acc.length + l.length by
    simpa using h []
  induction l with
  | nil => intro acc; rfl
  | cons y rest ih =>
    intro acc
    rw [List.foldl_cons, ih, insSorted_length, List.length_cons]
    omega

theorem mergeBands_single (b : Band) : mergeBands [b] = [b] := by
  simp [mergeBands, mergeStep, alookup, sortJs, insSorted]

theorem eval_tripRoute : buildTripRoute [rowT1] = [("t1", "R1")] := rfl

theorem eval_tripStops_single : buildTripStops [rowST1] =
    [("t1", [⟨"p1", some 1, some 0, some 28800⟩])] := by
  norm_num [buildTripStops, pushEntry, lookupD, alookup, setKey, rowST1,
    sortJs, insSorted, pI1, pF0, jOr_some_zero, tts0800]

theorem eval_tripStops_pair : buildTripStops [rowST1, rowST2] =
    [("t1", [⟨"p1", some 1, some 0, some 28800⟩,
             ⟨"p2", some 2, some 1000, some 30600⟩])] := by
  norm_num [buildTripStops, pushEntry, lookupD, alookup, setKey, rowST1, rowST2,
    sortJs, insSorted, pI1, pI2, pF0, pF1000, jOr_some_zero, tts0800, tts0830,
    jlt_some_some]

theorem eval_freqs_zero_headway :
    buildRouteFreqs [rowF0] (buildTripRoute [rowT1]) (buildTripStops [rowST1, rowST2]) =
      [("R1", [⟨some 28800, some 32400, some 0, some 1800⟩])] := by
  rw [eval_tripRoute, eval_tripStops_pair]
  norm_num [buildRouteFreqs, buildFreqsPre, freqStep, alookup, pushEntry, lookupD,
    setKey, mkBand, rowF0, tripDurOf, arrLast, jsub, tts0800, tts0900, pI0,
    mergeBands_single]
  rw [if_neg (show ¬ ("R1" : String) = "" by decide)]
  simp [mergeBands_single]

theorem eval_freqs_single_stop :
    buildRouteFreqs [rowF6] (buildTripRoute [rowT1]) (buildTripStops [rowST1]) =
      [("R1", [⟨some 28800, some 32400, some 600, some 0⟩])] := by
  rw [eval_tripRoute, eval_tripStops_single]
  norm_num [buildRouteFreqs, buildFreqsPre, freqStep, alookup, pushEntry, lookupD,
    setKey, mkBand, rowF6, tripDurOf, arrLast, jsub, tts0800, tts0900, pI600,
    mergeBands_single]
  rw [if_neg (show ¬ ("R1" : String) = "" by decide)]
  simp [mergeBands_single]

/-- C4 counterexample: a frequencies row whose trip has exactly one timed
stop (arrival 08:00:00) is emitted with derived trip duration
`arr - arr = 0` seconds, not the claimed 1800-second fallback: the source
falls back to 1800 only when the trip has no `stop_times` entry at all. -/
theorem c4_single_stop_trip_duration_zero :
    buildRouteFreqs [rowF6] (buildTripRoute [rowT1]) (buildTripStops [rowST1]) =
      [("R1", [⟨some 28800, some 32400, some 600, some 0⟩])] ∧
    (some (0 : ℚ) : JsNum) ≠ some 1800 := by
  refine ⟨eval_freqs_single_stop, ?_⟩
  intro hcon
  have : (0 : ℚ) = 1800 := Option.some.inj hcon
  norm_num at this

/-- C4 amended: the derived trip duration of a frequencies row's band equals
`lastStopArrival - firstStopArrival` over the trip's (sorted) stop_times
whenever the trip has at least one timed stop — hence `arr - arr = 0` when it
has exactly one timed stop with a finite arrival — and equals 1800 seconds
exactly when the trip has no stop_times entry. -/
theorem c4_amended_trip_duration :
    tripDurOf none = some 1800 ∧
    (∀ x : TripStop, ∀ xs : List TripStop,
      tripDurOf (some (x :: xs)) = jsub (arrLast (x :: xs)) x.arrSec) ∧
    (∀ x : TripStop, ∀ q : ℚ, x.arrSec = some q →
      tripDurOf (some [x]) = some 0) := by
  refine ⟨rfl, fun x xs => rfl, fun x q hq => ?_⟩
  show jsub (arrLast [x]) x.arrSec = some 0
  rw [show arrLast [x] = x.arrSec from rfl, hq]
  simp [jsub]

/-- Witness for the amended C4 at a concrete one-stop trip. -/
theorem c4_amended_trip_duration_witness :
    ((⟨"p1", some 1, some 0, some 28800⟩ : TripStop).arrSec = some 28800) ∧
    tripDurOf (some [⟨"p1", some 1, some 0, some 28800⟩]) = some 0 :=
  ⟨rfl, (c4_amended_trip_duration).2.2 ⟨"p1", some 1, some 0, some 28800⟩ 28800 rfl⟩

/-- C3 counterexample: a frequencies row with `headway_secs = "0"` (parsing
to the non-positive headway 0) is not excluded during preprocessing: the
emitted route record for `R1` carries a band with `headway = 0`, for which
`headway <= 0` holds. -/
theorem c3_zero_headway_band_emitted :
    (buildOutputRoutes [rowRR1] (buildRouteTrips [rowT1]) (buildShapesMap [rowSR1, rowSR2])
      (buildStopsMap []) (buildTripStops [rowST1, rowST2])
      (buildRouteFreqs [rowF0] (buildTripRoute [rowT1])
        (buildTripStops [rowST1, rowST2]))).map ORoute.frequencies =
      [[⟨some 28800, some 32400, some 0, some 1800⟩]] ∧
    jle (some 0) (some 0) = true := by
  refine ⟨?_, by decide⟩
  have hrt : buildRouteTrips [rowT1] = [("R1", [(tripKey rowT1, mkTripInfo rowT1)])] := by
    simp [buildRouteTrips, lookupD, alookup, setKey, rowT1]
  have hsm : buildShapesMap [rowSR1, rowSR2] =
      [("s1", sortJs (fun a b => jlt a.seq b.seq)
        [⟨parseFloatJs "40.0", parseFloatJs "-3.0", parseIntJs "1"⟩,
         ⟨parseFloatJs "40.1", parseFloatJs "-3.1", parseIntJs "2"⟩])] := by
    simp [buildShapesMap, pushEntry, lookupD, alookup, setKey, rowSR1, rowSR2]
  have hlen : ¬ ((sortJs (fun a b => jlt a.seq b.seq)
        [(⟨parseFloatJs "40.0", parseFloatJs "-3.0", parseIntJs "1"⟩ : ShapePt),
         ⟨parseFloatJs "40.1", parseFloatJs "-3.1", parseIntJs "2"⟩]).length < 2) := by
    rw [sortJs_length]
    norm_num
  rw [eval_freqs_zero_headway, hrt, hsm]
  simp only [buildOutputRoutes, List.filterMap_cons, List.filterMap_nil, buildRoute,
    alookup, rowRR1]
  simp only [reduceIte, buildShape, alookup, mkTripInfo, rowT1, List.filterMap_cons,
    List.filterMap_nil, if_neg hlen, lookupD]
  simp [List.map_cons]

/-! ## Association list lemmas -/

theorem alookup_setKey_same {K V : Type} [DecidableEq K] (m : List (K × V)) (k : K)
    (v : V) : alookup k (setKey m k v) = some v := by
  induction m with
  | nil => simp [setKey, alookup]
  | cons kv rest ih =>
    rw [setKey]
    by_cases hk : kv.1 = k
    · rw [if_pos hk, alookup, if_pos rfl]
    · rw [if_neg hk]
      rw [alookup, if_neg hk]
      exact ih

theorem alookup_setKey_other {K V : Type} [DecidableEq K] (m : List (K × V))
    (k k' : K) (v : V) (h : k ≠ k') : alookup k' (setKey m k v) = alookup k' m := by
  induction m with
  | nil => simp [setKey, alookup, h]
  | cons kv rest ih =>
    rw [setKey]
    by_cases hk : kv.1 = k
    · rw [if_pos hk, alookup, if_neg h, alookup, if_neg (by rw [hk]; exact h)]
    · rw [if_neg hk, alookup, alookup]
      by_cases hk' : kv.1 = k'
      · rw [if_pos hk', if_pos hk']
      · rw [if_neg hk', if_neg hk']
        exact ih

theorem lookupD_pushEntry_same {K V : Type} [DecidableEq K] (m : List (K × List V))
    (k : K) (v : V) : lookupD (pushEntry m k v) k = lookupD m k ++ [v] := by
  unfold pushEntry lookupD
  rw [alookup_setKey_same]
  rfl

theorem lookupD_pushEntry_other {K V : Type} [DecidableEq K] (m : List (K × List V))
    (k k' : K) (v : V) (h : k ≠ k') : lookupD (pushEntry m k v) k' = lookupD m k' := by
  unfold pushEntry lookupD
  rw [alookup_setKey_other _ _ _ _ h]

theorem freqFold_lookupD (tripRoute : List (String × String))
    (tripStops : List (String × List TripStop)) (rows : List FreqRow) :
    ∀ (acc : List (String × List Band)) (rid : String), rid ≠ "" →
      lookupD (rows.foldl (freqStep tripRoute tripStops) acc) rid =
        lookupD acc rid ++ rows.filterMap (fun f =>
          if alookup f.trip_id tripRoute = some rid
          then some (mkBand tripStops f) else none) := by
  induction rows with
  | nil =>
    intro acc rid hrid
    simp
  | cons f rest ih =>
    intro acc rid hrid
    rw [List.foldl_cons]
    cases halo : alookup f.trip_id tripRoute with
    | none =>
      rw [show freqStep tripRoute tripStops acc f = acc by rw [freqStep, halo],
        ih acc rid hrid,
        List.filterMap_cons_none (by rw [halo]; simp)]
    | some r' =>
      by_cases hre : r' = ""
      · rw [show freqStep tripRoute tripStops acc f = acc by
          rw [freqStep, halo]; simp [hre],
          ih acc rid hrid,
          List.filterMap_cons_none (by
            rw [halo]
            simp only [Option.some.injEq]
            rw [if_neg (by rw [hre]; exact fun hcon => hrid hcon.symm)])]
      · have hstep : freqStep tripRoute tripStops acc f =
            pushEntry acc r' (mkBand tripStops f) := by
          rw [freqStep, halo]
          simp [hre]
        by_cases heq : r' = rid
        · subst heq
          have hcons : List.filterMap (fun g =>
              if alookup g.trip_id tripRoute = some r'
              then some (mkBand tripStops g) else none) (f :: rest) =
              mkBand tripStops f :: List.filterMap (fun g =>
                if alookup g.trip_id tripRoute = some r'
                then some (mkBand tripStops g) else none) rest := by
            rw [List.filterMap_cons]
            simp [halo]
          rw [hstep, ih _ r' hrid, lookupD_pushEntry_same, hcons,
            List.append_assoc, List.singleton_append]
        · rw [hstep, ih _ rid hrid, lookupD_pushEntry_other _ _ _ _ heq,
            List.filterMap_cons_none (by rw [halo]; simp [heq])]

/-- C3 amended: preprocessing does not filter frequencies rows by headway at
all: for every route id, the pre-merge frequency collection is exactly the
list of bands parsed from the rows whose trip resolves to that route,
carrying `headway = parseInt(headway_secs)` whatever its sign (`NaN` when
unparsable); the exclusion of non-positive headways happens in the engine,
whose guard skips such a band at query time. -/
theorem c3_amended_no_headway_filter (freqRows : List FreqRow)
    (tripRoute : List (String × String)) (tripStops : List (String × List TripStop))
    (rid : String) (hrid : rid ≠ "") :
    lookupD (buildFreqsPre freqRows tripRoute tripStops) rid =
      freqRows.filterMap (fun f =>
        if alookup f.trip_id tripRoute = some rid
        then some (mkBand tripStops f) else none) ∧
    (∀ f : FreqRow, (mkBand tripStops f).headway = parseIntJs f.headway_secs) ∧
    (∀ r : ORoute, ∀ b : Band, ∀ t : JsNum, jle b.headway (some 0) = true →
      bandVehicles r b t = []) := by
  refine ⟨?_, fun f => rfl, fun r b t hle => bandVehicles_of_nonpos r b t hle⟩
  have h := freqFold_lookupD tripRoute tripStops freqRows [] rid hrid
  rw [buildFreqsPre, h]
  rfl

/-- Witness for the amended C3 on the zero-headway fixture row. -/
theorem c3_amended_no_headway_filter_witness :
    (("R1" : String) ≠ "") ∧
    lookupD (buildFreqsPre [rowF0] (buildTripRoute [rowT1])
        (buildTripStops [rowST1, rowST2])) "R1" =
      [rowF0].filterMap (fun f =>
        if alookup f.trip_id (buildTripRoute [rowT1]) = some "R1"
        then some (mkBand (buildTripStops [rowST1, rowST2]) f) else none) :=
  ⟨by decide,
   (c3_amended_no_headway_filter [rowF0] (buildTripRoute [rowT1])
     (buildTripStops [rowST1, rowST2]) "R1" (by decide)).1⟩

/-! ## Support lemmas for the band merge -/

theorem jle_eq_true_iff (a b : JsNum) :
    jle a b = true ↔ ∃ x y : ℚ, a = some x ∧ b = some y ∧ x ≤ y := by
  cases a with
  | none => simp [jle]
  | some x =>
    cases b with
    | none => simp [jle]
    | some y => simp [jle]

theorem jlt_eq_true_iff (a b : JsNum) :
    jlt a b = true ↔ ∃ x y : ℚ, a = some x ∧ b = some y ∧ x < y := by
  cases a with
  | none => simp [jlt]
  | some x =>
    cases b with
    | none => simp [jlt]
    | some y => simp [jlt]

theorem jle_refl_fin {a : JsNum} {q : ℚ} (h : a = some q) : jle a a = true := by
  rw [h, jle_some_some]
  simp

theorem jle_trans' {a b c : JsNum} (h1 : jle a b = true) (h2 : jle b c = true) :
    jle a c = true := by
  obtain ⟨x, y, hx, hy, hxy⟩ := (jle_eq_true_iff a b).1 h1
  obtain ⟨y', z, hy', hz, hyz⟩ := (jle_eq_true_iff b c).1 h2
  rw [hy'] at hy
  rw [hx, hz, jle_some_some]
  simp only [decide_eq_true_eq]
  have : y = y' := by
    exact (Option.some.inj hy).symm
  exact le_trans hxy (this ▸ hyz)

theorem jle_of_jlt {a b : JsNum} (h : jlt a b = true) : jle a b = true := by
  obtain ⟨x, y, hx, hy, hxy⟩ := (jlt_eq_true_iff a b).1 h
  rw [hx, hy, jle_some_some]
  simp only [decide_eq_true_eq]
  exact le_of_lt hxy

theorem jle_of_not_jlt {x y : ℚ} (h : jlt (some x) (some y) = false) :
    jle (some y) (some x) = true := by
  rw [jlt_some_some] at h
  rw [jle_some_some]
  simp only [decide_eq_false_iff_not, not_lt] at h
  simpa using h

theorem alookup_eq_none_iff {K V : Type} [DecidableEq K] (m : List (K × V)) (k : K) :
    alookup k m = none ↔ k ∉ m.map Prod.fst := by
  induction m with
  | nil => simp [alookup]
  | cons kv rest ih =>
    rw [alookup]
    by_cases hk : kv.1 = k
    · simp [hk]
    · simp only [List.map_cons, List.mem_cons, if_neg hk, ih]
      constructor
      · intro h hc
        rcases hc with hc | hc
        · exact hk hc.symm
        · exact h hc
      · intro h hc
        exact h (Or.inr hc)

theorem alookup_mem {K V : Type} [DecidableEq K] {m : List (K × V)} {k : K} {v : V}
    (h : alookup k m = some v) : (k, v) ∈ m := by
  induction m with
  | nil => simp [alookup] at h
  | cons kv rest ih =>
    rw [alookup] at h
    by_cases hk : kv.1 = k
    · rw [if_pos hk] at h
      have heq : (k, v) = kv := by
        cases kv with
        | mk a b =>
          simp only at hk
          exact Prod.ext hk.symm (Option.some.inj h).symm
      rw [heq]
      exact List.mem_cons_self _ _
    · rw [if_neg hk] at h
      exact List.mem_cons_of_mem _ (ih h)

theorem alookup_isSome_mem_keys {K V : Type} [DecidableEq K] {m : List (K × V)}
    {k : K} {v : V} (h : alookup k m = some v) : k ∈ m.map Prod.fst := by
  by_contra hc
  rw [← alookup_eq_none_iff] at hc
  rw [h] at hc
  exact Option.noConfusion hc

theorem keys_setKey_of_mem {K V : Type} [DecidableEq K] (m : List (K × V)) (k : K)
    (v : V) (h : k ∈ m.map Prod.fst) :
    (setKey m k v).map Prod.fst = m.map Prod.fst := by
  induction m with
  | nil => simp at h
  | cons kv rest ih =>
    rw [setKey]
    by_cases hk : kv.1 = k
    · rw [if_pos hk]
      simp [hk]
    · rw [if_neg hk]
      simp only [List.map_cons, List.mem_cons] at h
      rcases h with h | h
      · exact absurd h.symm hk
      · simp [ih h]

theorem mem_setKey_nodup {K V : Type} [DecidableEq K] {m : List (K × V)} {k : K}
    {v : V} (hnd : (m.map Prod.fst).Nodup) :
    ∀ kv ∈ setKey m k v, kv = (k, v) ∨ (kv ∈ m ∧ kv.1 ≠ k) := by
  induction m with
  | nil =>
    intro kv hkv
    rw [setKey] at hkv
    left
    simpa using hkv
  | cons hd rest ih =>
    intro kv hkv
    rw [setKey] at hkv
    by_cases hk : hd.1 = k
    · rw [if_pos hk] at hkv
      rcases List.mem_cons.1 hkv with hh | ht
      · exact Or.inl hh
      · right
        refine ⟨List.mem_cons_of_mem _ ht, ?_⟩
        intro hc
        rw [List.map_cons, List.nodup_cons] at hnd
        exact hnd.1 (hk ▸ hc ▸ (List.mem_map.2 ⟨kv, ht, rfl⟩))
    · rw [if_neg hk] at hkv
      rcases List.mem_cons.1 hkv with hh | ht
      · right
        exact ⟨hh ▸ List.mem_cons_self _ _, hh ▸ hk⟩
      · rcases ih (by rw [List.map_cons, List.nodup_cons] at hnd; exact hnd.2) kv ht
          with hc | hc
        · exact Or.inl hc
        · exact Or.inr ⟨List.mem_cons_of_mem _ hc.1, hc.2⟩

theorem alookup_of_mem_nodup {K V : Type} [DecidableEq K] {m : List (K × V)}
    {k : K} {v : V} (hnd : (m.map Prod.fst).Nodup) (h : (k, v) ∈ m) :
    alookup k m = some v := by
  induction m with
  | nil => simp at h
  | cons hd rest ih =>
    rw [List.map_cons, List.nodup_cons] at hnd
    rcases List.mem_cons.1 h with hh | ht
    · rw [← hh, alookup, if_pos rfl]
    · rw [alookup]
      by_cases hk : hd.1 = k
      · exfalso
        exact hnd.1 (hk ▸ List.mem_map.2 ⟨(k, v), ht, hk ▸ rfl⟩)
      · rw [if_neg hk]
        exact ih hnd.2 ht

theorem mem_insSorted {α : Type} (lt : α → α → Bool) (x a : α) :
    ∀ l : List α, a ∈ insSorted lt x l ↔ a = x ∨ a ∈ l := by
  intro l
  induction l with
  | nil => simp [insSorted]
  | cons y rest ih =>
    rw [insSorted]
    by_cases hc : lt x y = true
    · rw [if_pos hc]
      simp [List.mem_cons]
    · rw [if_neg hc]
      simp only [List.mem_cons, ih]
      tauto

theorem insSorted_perm {α : Type} (lt : α → α → Bool) (x : α) :
    ∀ l : List α, List.Perm (insSorted lt x l) (x :: l) := by
  intro l
  induction l with
  | nil => exact List.Perm.refl _
  | cons y rest ih =>
    rw [insSorted]
    by_cases hc : lt x y = true
    · rw [if_pos hc]
    · rw [if_neg hc]
      exact (List.Perm.cons y ih).trans (List.Perm.swap x y rest)

theorem sortJs_perm {α : Type} (lt : α → α → Bool) (l : List α) :
    List.Perm (sortJs lt l) l := by
  suffices h : ∀ acc : List α,
      List.Perm (l.foldl (fun a x => insSorted lt x a) acc) (acc ++ l) by
    simpa using h []
  induction l with
  | nil => intro acc; simp
  | cons x rest ih =>
    intro acc
    rw [List.foldl_cons]
    refine (ih (insSorted lt x acc)).trans ?_
    refine (List.Perm.append_right rest (insSorted_perm lt x acc)).trans ?_
    exact List.perm_middle.symm

theorem pairwise_insSorted (x : Band) (l : List Band)
    (hx : ∃ q : ℚ, x.startSec = some q) (hl : ∀ y ∈ l, ∃ q : ℚ, y.startSec = some q)
    (h : List.Pairwise (fun a b => jle a.startSec b.startSec = true) l) :
    List.Pairwise (fun a b => jle a.startSec b.startSec = true)
      (insSorted (fun a b => jlt a.startSec b.startSec) x l) := by
  induction l with
  | nil => simp [insSorted]
  | cons y rest ih =>
    rw [insSorted]
    rw [List.pairwise_cons] at h
    by_cases hc : jlt x.startSec y.startSec = true
    · rw [if_pos hc]
      refine List.Pairwise.cons ?_ (List.Pairwise.cons h.1 h.2)
      intro z hz
      rcases List.mem_cons.1 hz with hh | ht
      · rw [hh]
        exact jle_of_jlt hc
      · exact jle_trans' (jle_of_jlt hc) (h.1 z ht)
    · rw [if_neg hc]
      refine List.Pairwise.cons ?_ (ih (fun z hz => hl z (List.mem_cons_of_mem _ hz)) h.2)
      intro z hz
      rcases (mem_insSorted _ x z rest).1 hz with hh | ht
      · obtain ⟨qx, hqx⟩ := hx
        obtain ⟨qy, hqy⟩ := hl y (List.mem_cons_self _ _)
        rw [hh]
        rw [hqx, hqy] at hc ⊢
        exact jle_of_not_jlt (by simpa using hc)
      · exact h.1 z ht

theorem sortJs_pairwise (l : List Band)
    (hl : ∀ y ∈ l, ∃ q : ℚ, y.startSec = some q) :
    List.Pairwise (fun a b => jle a.startSec b.startSec = true)
      (sortJs (fun a b => jlt a.startSec b.startSec) l) := by
  suffices h : ∀ acc : List Band, (∀ y ∈ acc, ∃ q : ℚ, y.startSec = some q) →
      List.Pairwise (fun a b => jle a.startSec b.startSec = true) acc →
      List.Pairwise (fun a b => jle a.startSec b.startSec = true)
        (l.foldl (fun a x => insSorted (fun a b => jlt a.startSec b.startSec) x a) acc) by
    exact h [] (by simp) List.Pairwise.nil
  induction l with
  | nil => intro acc hacc hp; simpa using hp
  | cons x rest ih =>
    intro acc hacc hp
    rw [List.foldl_cons]
    refine ih (fun y hy => hl y (List.mem_cons_of_mem _ hy)) _ ?_ ?_
    · intro y hy
      rcases (mem_insSorted _ x y acc).1 hy with hh | ht
      · exact hh ▸ hl x (List.mem_cons_self _ _)
      · exact hacc y ht
    · exact pairwise_insSorted x acc (hl x (List.mem_cons_self _ _)) hacc hp

theorem mergeStep_inv {m : List ((JsNum × JsNum) × Band)} {processed : List Band}
    {b : Band} (hb : ∃ h : ℚ, b.headway = some h)
    (hproc : ∀ c ∈ processed, ∃ h : ℚ, c.headway = some h)
    (hinv : MergeInv m processed) :
    MergeInv (mergeStep m b) (processed ++ [b]) := by
  obtain ⟨hbq, hbheq⟩ := hb
  obtain ⟨hnd, hkv, hcov⟩ := hinv
  rw [mergeStep]
  cases halo : alookup (mergeKey b) m with
  | none =>
    have hknot : mergeKey b ∉ m.map Prod.fst := (alookup_eq_none_iff _ _).1 halo
    refine ⟨?_, ?_, ?_⟩
    · rw [List.map_append, List.nodup_append]
      refine ⟨hnd, by simp, ?_⟩
      intro a ha hmem
      simp only [List.map_cons, List.map_nil, List.mem_singleton] at hmem
      rw [hmem] at ha
      exact hknot ha
    · intro kv hkvm
      rcases List.mem_append.1 hkvm with hm | hnew
      · obtain ⟨hk1, hk2, hk3⟩ := hkv kv hm
        refine ⟨hk1, List.mem_append_left _ hk2, ?_⟩
        intro c hc hkey
        rcases List.mem_append.1 hc with hcp | hcb
        · exact hk3 c hcp hkey
        · have hcb' : c = b := by simpa using hcb
          exfalso
          apply hknot
          rw [← hcb', hkey]
          exact List.mem_map.2 ⟨kv, hm, rfl⟩
      · have hkv' : kv = (mergeKey b, b) := by simpa using hnew
        subst hkv'
        refine ⟨rfl, List.mem_append_right _ (by simp), ?_⟩
        intro c hc hkey
        rcases List.mem_append.1 hc with hcp | hcb
        · have hkey' : mergeKey c = mergeKey b := hkey
          exact absurd (hkey' ▸ hcov c hcp) hknot
        · have hcb' : c = b := by simpa using hcb
          rw [hcb']
          exact jle_refl_fin hbheq
    · intro c hc
      rw [List.map_append]
      rcases List.mem_append.1 hc with hcp | hcb
      · exact List.mem_append_left _ (hcov c hcp)
      · have hcb' : c = b := by simpa using hcb
        rw [hcb']
        exact List.mem_append_right _ (by simp)
  | some cur =>
    have hmemcur : (mergeKey b, cur) ∈ m := alookup_mem halo
    have hkmem : mergeKey b ∈ m.map Prod.fst := alookup_isSome_mem_keys halo
    obtain ⟨hc1, hc2, hc3⟩ := hkv _ hmemcur
    show MergeInv (if jlt b.headway cur.headway = true
      then setKey m (mergeKey b) b else m) (processed ++ [b])
    by_cases hlt : jlt b.headway cur.headway = true
    · rw [if_pos hlt]
      refine ⟨?_, ?_, ?_⟩
      · rw [keys_setKey_of_mem _ _ _ hkmem]
        exact hnd
      · intro kv hkvm
        rcases mem_setKey_nodup hnd kv hkvm with hnew | ⟨hm, hne⟩
        · subst hnew
          refine ⟨rfl, List.mem_append_right _ (by simp), ?_⟩
          intro c hc hkey
          rcases List.mem_append.1 hc with hcp | hcb
          · exact jle_trans' (jle_of_jlt hlt) (hc3 c hcp hkey)
          · have hcb' : c = b := by simpa using hcb
            rw [hcb']
            exact jle_refl_fin hbheq
        · obtain ⟨hk1, hk2, hk3⟩ := hkv kv hm
          refine ⟨hk1, List.mem_append_left _ hk2, ?_⟩
          intro c hc hkey
          rcases List.mem_append.1 hc with hcp | hcb
          · exact hk3 c hcp hkey
          · have hcb' : c = b := by simpa using hcb
            rw [hcb'] at hkey
            exact absurd hkey.symm hne
      · intro c hc
        rw [keys_setKey_of_mem _ _ _ hkmem]
        rcases List.mem_append.1 hc with hcp | hcb
        · exact hcov c hcp
        · have hcb' : c = b := by simpa using hcb
          rw [hcb']
          exact hkmem
    · rw [if_neg hlt]
      refine ⟨hnd, ?_, ?_⟩
      · intro kv hkvm
        obtain ⟨hk1, hk2, hk3⟩ := hkv kv hkvm
        refine ⟨hk1, List.mem_append_left _ hk2, ?_⟩
        intro c hc hkey
        rcases List.mem_append.1 hc with hcp | hcb
        · exact hk3 c hcp hkey
        · have hcb' : c = b := by simpa using hcb
          rw [hcb'] at hkey
          have hkv2 : alookup (mergeKey b) m = some kv.2 := by
            apply alookup_of_mem_nodup hnd
            have hpair : kv = (mergeKey b, kv.2) := by
              rw [hkey]
            rw [← hpair]
            exact hkvm
          have hcur : kv.2 = cur := by
            rw [hkv2] at halo
            exact Option.some.inj halo
          obtain ⟨qc, hqc⟩ := hproc cur hc2
          rw [hcb', hcur, hqc, hbheq]
          apply jle_of_not_jlt
          rw [← hqc, ← hbheq]
          exact Bool.eq_false_iff.2 hlt
      · intro c hc
        rcases List.mem_append.1 hc with hcp | hcb
        · exact hcov c hcp
        · have hcb' : c = b := by simpa using hcb
          rw [hcb']
          exact hkmem

theorem mergeFold_inv (bands : List Band)
    (hfin : ∀ b ∈ bands, ∃ h : ℚ, b.headway = some h) :
    ∀ (m : List ((JsNum × JsNum) × Band)) (processed : List Band),
      (∀ c ∈ processed, ∃ h : ℚ, c.headway = some h) →
      MergeInv m processed →
      MergeInv (bands.foldl mergeStep m) (processed ++ bands) := by
  induction bands with
  | nil =>
    intro m processed hproc hinv
    simpa using hinv
  | cons b rest ih =>
    intro m processed hproc hinv
    rw [List.foldl_cons]
    have hstep := mergeStep_inv (hfin b (List.mem_cons_self _ _)) hproc hinv
    have hrec := ih (fun c hc => hfin c (List.mem_cons_of_mem _ hc))
      (mergeStep m b) (processed ++ [b])
      (by
        intro c hc
        rcases List.mem_append.1 hc with hcp | hcb
        · exact hproc c hcp
        · have hcb' : c = b := by simpa using hcb
          rw [hcb']
          exact hfin b (List.mem_cons_self _ _))
      hstep
    simpa [List.append_assoc] using hrec

/-- C5: after band merging, every route's output carries at most one band per
`(startSec, endSec)` window; each output band is one of the input bands and
its headway is a minimum among all input bands sharing exactly its window;
and the output is ordered by `startSec` ascending.  (Finite band fields: a
band whose fields parsed to `NaN` compares as `NaN` does in JavaScript and is
outside this claim's data model.) -/
theorem merge_bands_spec (bands : List Band)
    (hfin : ∀ b ∈ bands, ∃ s e h : ℚ,
      b.startSec = some s ∧ b.endSec = some e ∧ b.headway = some h) :
    List.Pairwise (fun a b => mergeKey a ≠ mergeKey b) (mergeBands bands) ∧
    (∀ b ∈ mergeBands bands, b ∈ bands ∧
      ∀ c ∈ bands, mergeKey c = mergeKey b → jle b.headway c.headway = true) ∧
    List.Pairwise (fun a b => jle a.startSec b.startSec = true) (mergeBands bands) := by
  have hinv : MergeInv (bands.foldl mergeStep []) bands := by
    have h := mergeFold_inv bands
      (fun b hb => ⟨(hfin b hb).choose_spec.choose_spec.choose,
        (hfin b hb).choose_spec.choose_spec.choose_spec.2.2⟩) [] []
      (by intro c hc; exact absurd hc (List.not_mem_nil c))
      ⟨List.nodup_nil,
       fun kv hkv => absurd hkv (List.not_mem_nil kv),
       fun c hc => absurd hc (List.not_mem_nil c)⟩
    simpa using h
  obtain ⟨hnd, hkv, hcov⟩ := hinv
  have hvalmem : ∀ b ∈ (bands.foldl mergeStep []).map Prod.snd, b ∈ bands ∧
      ∀ c ∈ bands, mergeKey c = mergeKey b → jle b.headway c.headway = true := by
    intro b hb
    obtain ⟨kv, hkvm, hkv2⟩ := List.mem_map.1 hb
    obtain ⟨hk1, hk2, hk3⟩ := hkv kv hkvm
    subst hkv2
    exact ⟨hk2, fun c hc hkey => hk3 c hc (hkey.trans hk1.symm)⟩
  have hperm : List.Perm (mergeBands bands) ((bands.foldl mergeStep []).map Prod.snd) := by
    unfold mergeBands
    exact sortJs_perm _ _
  refine ⟨?_, ?_, ?_⟩
  · have hkeysnd : (bands.foldl mergeStep []).map Prod.fst =
        ((bands.foldl mergeStep []).map Prod.snd).map mergeKey := by
      rw [List.map_map]
      exact List.map_congr_left (fun kv hkvm => (hkv kv hkvm).1)
    have hnd2 : (((bands.foldl mergeStep []).map Prod.snd).map mergeKey).Nodup := by
      rw [← hkeysnd]
      exact hnd
    have hpw : List.Pairwise (fun a b => mergeKey a ≠ mergeKey b)
        ((bands.foldl mergeStep []).map Prod.snd) := by
      have := (List.pairwise_map).1 hnd2
      exact this
    exact (hperm.pairwise_iff (fun hab hba => hab hba.symm)).2 hpw
  · intro b hb
    exact hvalmem b (hperm.mem_iff.1 hb)
  · unfold mergeBands
    apply sortJs_pairwise
    intro y hy
    obtain ⟨s, e, h, hs, he, hh⟩ := hfin y (hvalmem y hy).1
    exact ⟨s, hs⟩

/-- Witness for C5 on the example band. -/
theorem merge_bands_spec_witness :
    (∀ b ∈ [Bex], ∃ s e h : ℚ,
      b.startSec = some s ∧ b.endSec = some e ∧ b.headway = some h) ∧
    List.Pairwise (fun a b => jle a.startSec b.startSec = true) (mergeBands [Bex]) := by
  have hf : ∀ b ∈ [Bex], ∃ s e h : ℚ,
      b.startSec = some s ∧ b.endSec = some e ∧ b.headway = some h := by
    intro b hb
    rw [List.mem_singleton] at hb
    subst hb
    exact ⟨28800, 32400, 600, rfl, rfl, rfl⟩
  exact ⟨hf, (merge_bands_spec [Bex] hf).2.2⟩

/-! ## Per-route frame: degenerate first shape, and only the first shape -/

theorem head?_take_one {α : Type} (l : List α) : (l.take 1).head? = l.head? := by
  cases l <;> rfl

theorem routeGeo_eq_none (lineLen : List (JsNum × JsNum) → ℚ) (r : ORoute)
    (h : r.shapes.head? = none ∨ ∃ sh, r.shapes.head? = some sh ∧
      (sh.coordinates.length < 2 ∨ lineLen sh.coordinates ≤ 0.05)) :
    routeGeo lineLen r = none := by
  unfold routeGeo
  rcases h with h | ⟨sh, hsh, hc⟩
  · rw [h]
  · rw [hsh]
    show (if sh.coordinates.length < 2 then (none : Option Geo)
      else if (0.05 : ℚ) < lineLen sh.coordinates
      then some ⟨sh.coordinates, lineLen sh.coordinates⟩ else none) = none
    by_cases hlen : sh.coordinates.length < 2
    · rw [if_pos hlen]
    · rw [if_neg hlen]
      rcases hc with hc | hc
      · exact absurd hc hlen
      · rw [if_neg (not_lt.2 hc)]

theorem routeGeo_take_one (lineLen : List (JsNum × JsNum) → ℚ) (r : ORoute) :
    routeGeo lineLen { r with shapes := r.shapes.take 1 } = routeGeo lineLen r := by
  unfold routeGeo
  rw [show ({ r with shapes := r.shapes.take 1 } : ORoute).shapes.head? =
    r.shapes.head? from head?_take_one r.shapes]

theorem shapeHits_take_one (p : JsNum) (l : List OShape) :
    shapeHits p (l.take 1) = shapeHits p l := by
  unfold shapeHits
  rw [head?_take_one]

theorem vehicleFeature_take_one (r : ORoute) (ri : ℕ) (sel : Option String)
    (pt : JsNum × JsNum) :
    vehicleFeature { r with shapes := r.shapes.take 1 } ri sel pt =
      vehicleFeature r ri sel pt := by
  unfold vehicleFeature
  rw [show ({ r with shapes := r.shapes.take 1 } : ORoute).shapes.head? =
    r.shapes.head? from head?_take_one r.shapes]

theorem routeFrame_take_one
    (along : List (JsNum × JsNum) → JsNum → Option (JsNum × JsNum))
    (lineLen : List (JsNum × JsNum) → ℚ) (r : ORoute) (ri : ℕ)
    (sel : Option String) (t : JsNum) :
    routeFrame along (routeGeo lineLen { r with shapes := r.shapes.take 1 })
      { r with shapes := r.shapes.take 1 } ri sel t =
    routeFrame along (routeGeo lineLen r) r ri sel t := by
  rw [routeGeo_take_one]
  cases routeGeo lineLen r with
  | none => rfl
  | some g =>
    show (activeBuses { r with shapes := r.shapes.take 1 } t).foldl (fun acc ab =>
        match along g.line (jmul (clampProg ab) (some g.len)) with
        | none => acc
        | some pt =>
          (acc.1 ++ [vehicleFeature { r with shapes := r.shapes.take 1 } ri sel pt],
           acc.2 ++ shapeHits (clampProg ab)
             ({ r with shapes := r.shapes.take 1 } : ORoute).shapes))
        ([], []) =
      (activeBuses r t).foldl (fun acc ab =>
        match along g.line (jmul (clampProg ab) (some g.len)) with
        | none => acc
        | some pt =>
          (acc.1 ++ [vehicleFeature r ri sel pt],
           acc.2 ++ shapeHits (clampProg ab) r.shapes))
        ([], [])
    rw [show activeBuses { r with shapes := r.shapes.take 1 } t =
      activeBuses r t from rfl]
    congr 1
    funext acc ab
    cases along g.line (jmul (clampProg ab) (some g.len)) with
    | none => rfl
    | some pt =>
      show (acc.1 ++ [vehicleFeature { r with shapes := r.shapes.take 1 } ri sel pt],
          acc.2 ++ shapeHits (clampProg ab)
            ({ r with shapes := r.shapes.take 1 } : ORoute).shapes) =
        (acc.1 ++ [vehicleFeature r ri sel pt],
          acc.2 ++ shapeHits (clampProg ab) r.shapes)
      rw [vehicleFeature_take_one,
        show ({ r with shapes := r.shapes.take 1 } : ORoute).shapes =
          r.shapes.take 1 from rfl,
        shapeHits_take_one]

/-- C9: a route whose first shape is missing, has fewer than 2 coordinate
points, or whose line length is at most 0.05 km contributes zero vehicles and
zero visited stops to every frame, whatever its frequency bands and the
simulated time; and the frame computation reads only `shapes[0]` — replacing
the shape list by its first element changes nothing. -/
theorem degenerate_first_shape_contributes_nothing
    (lineLen : List (JsNum × JsNum) → ℚ)
    (along : List (JsNum × JsNum) → JsNum → Option (JsNum × JsNum))
    (r : ORoute) (ri : ℕ) (sel : Option String) (t : JsNum) :
    ((r.shapes.head? = none ∨ ∃ sh, r.shapes.head? = some sh ∧
        (sh.coordinates.length < 2 ∨ lineLen sh.coordinates ≤ 0.05)) →
      routeFrame along (routeGeo lineLen r) r ri sel t = ([], [])) ∧
    routeFrame along (routeGeo lineLen r) r ri sel t =
      routeFrame along (routeGeo lineLen { r with shapes := r.shapes.take 1 })
        { r with shapes := r.shapes.take 1 } ri sel t := by
  constructor
  · intro hdeg
    rw [routeGeo_eq_none lineLen r hdeg]
    rfl
  · exact (routeFrame_take_one along lineLen r ri sel t).symm

/-- Witness for C9: a route with no shapes at all contributes an empty
frame. -/
theorem degenerate_first_shape_witness :
    (Rex.shapes.head? = none ∨ ∃ sh, Rex.shapes.head? = some sh ∧
      (sh.coordinates.length < 2 ∨ (fun _ => (0 : ℚ)) sh.coordinates ≤ 0.05)) ∧
    routeFrame (fun _ _ => none) (routeGeo (fun _ => (0 : ℚ)) Rex) Rex 0 none
      (some 29100) = ([], []) :=
  ⟨Or.inl rfl,
   (degenerate_first_shape_contributes_nothing (fun _ => (0 : ℚ)) (fun _ _ => none)
     Rex 0 none (some 29100)).1 (Or.inl rfl)⟩
